import Mathlib

/-!
Verification of the MCPSpy capture-to-correlation pipeline.

This file gives a shallow embedding, in Lean 4, of the parts of the MCPSpy
sources that the specification's claims are about:

* the kernel stdio JSON aggregation layer (`src/bpf/json.h` and the
  `exit_vfs_read` / `exit_vfs_write` programs in `src/bpf/mcpspy.c`);
* the userspace JSON-RPC parser and request/response correlator
  (`src/pkg/mcp/parser.go`) together with the process-chain data model
  (`pkg/event`, `ProcessChain.AddHop`);
* the SSL session tracking programs (`ssl_new_exit`, `ssl_do_handshake_exit`,
  `ssl_read_exit`, `ssl_write_entry`);
* the library hook manager's cross-namespace attach path
  (`src/pkg/ebpf/library_manager.go`, `attachSSLProbesInNamespace`);
* the deterministic session-id generator (`pkg/session`,
  `GenerateDeterministicID`).

Byte buffers are modelled as `List Nat` (one `Nat` per byte), kernel maps as
association lists, and machine integers as `Nat`/`Int` with explicit
reduction modulo `2 ^ 32` where the source relies on 32-bit wraparound.
Fallible operations return `Option` or `Except`.  Every definition is
executable.
-/

namespace MCPSpy

/-! ## Association-list maps

Kernel BPF hash maps (`bpf_map_lookup_elem` / `bpf_map_update_elem` /
`bpf_map_delete_elem`) and the userspace Go maps are modelled as association
lists with first-match lookup.  `mapSet` removes any previous binding so that
a map never holds two live entries for one key.
-/

def mapGet {κ α : Type} [DecidableEq κ] (k : κ) : List (κ × α) → Option α
  | [] => none
  | (k2, v) :: rest => if k2 = k then some v else mapGet k rest

def mapDel {κ α : Type} [DecidableEq κ] (k : κ) (m : List (κ × α)) : List (κ × α) :=
  m.filter (fun p => p.1 ≠ k)

def mapSet {κ α : Type} [DecidableEq κ] (k : κ) (v : α) (m : List (κ × α)) : List (κ × α) :=
  (k, v) :: mapDel k m

theorem mapGet_nil {κ α : Type} [DecidableEq κ] (k : κ) :
    mapGet (α := α) k [] = none := rfl

theorem mapGet_mapSet_self {κ α : Type} [DecidableEq κ] (k : κ) (v : α)
    (m : List (κ × α)) : mapGet k (mapSet k v m) = some v := by
  simp [mapGet, mapSet]

theorem mapGet_mapDel_self {κ α : Type} [DecidableEq κ] (k : κ) (m : List (κ × α)) :
    mapGet k (mapDel k m) = none := by
  induction m with
  | nil => rfl
  | cons p rest ih =>
    by_cases h : p.1 = k
    · simpa [mapDel, h] using ih
    · simpa [mapDel, mapGet, h] using ih

theorem mem_mapDel {κ α : Type} [DecidableEq κ] {k : κ} {m : List (κ × α)}
    {p : κ × α} (hp : p ∈ mapDel k m) : p ∈ m := by
  exact List.mem_of_mem_filter hp

theorem mem_mapSet {κ α : Type} [DecidableEq κ] {k : κ} {v : α} {m : List (κ × α)}
    {p : κ × α} (hp : p ∈ mapSet k v m) : p = (k, v) ∨ p ∈ m := by
  simp only [mapSet] at hp
  rcases List.mem_cons.mp hp with h | h
  · exact Or.inl h
  · exact Or.inr (mem_mapDel h)

/-! ## Bytes -/

/-- Bytes of a string, one `Nat` per character code, mirroring Go's `[]byte`
conversion for the ASCII payloads that appear in the claims. -/
def strBytes (s : String) : List Nat :=
  s.toList.map Char.toNat

/-! ## Kernel JSON aggregation (`src/bpf/json.h`)

`count_brackets_callback` iterates over the buffer in 64-byte chunks via
`bpf_loop`, counting `priv:` open (`MCPSpy` code 123 = `'\x7b'`) and close
(125 = `'\x7d'`) brackets, and setting `invalid` (and stopping) as soon as
the running close count exceeds the running open count.  Chunking is a
verifier artifact: semantically the scan is byte-sequential with a byte
bound (`bpf_loop` iteration bound × 64), which is how it is modelled here.
`bpf_probe_read` is modelled as always succeeding.
-/

def maxBufSize : Nat := 65536

def maxAggregatedSize : Nat := maxBufSize

/-- Running state of the bracket-counting scan (`struct bracket_count_ctx`). -/
structure BracketScan where
  opens : Nat
  closes : Nat
  invalid : Bool
  deriving DecidableEq, Repr

/-- One byte of `count_brackets_callback`: the scan freezes once `invalid`
is set (the callback returns 1 and `bpf_loop` stops). -/
def bracketStep (s : BracketScan) (c : Nat) : BracketScan :=
  if s.invalid then s
  else if c = 123 then { s with opens := s.opens + 1 }
  else if c = 125 then
    if s.opens < s.closes + 1 then { s with closes := s.closes + 1, invalid := true }
    else { s with closes := s.closes + 1 }
  else s

/-- Bracket scan of the first `limit` bytes of the buffer (`bpf_loop` with
`limit / 64` chunk iterations). -/
def scanBrackets (limit : Nat) (bs : List Nat) : BracketScan :=
  (bs.take limit).foldl bracketStep ⟨0, 0, false⟩

/-- JSON aggregation state (`struct json_aggregation_state`).  The
`accumulated_size` field of the C struct is `data.length` here. -/
structure JsonAggState where
  data : List Nat
  openB : Nat
  closeB : Nat
  foundOpening : Bool
  operation : Nat
  deriving DecidableEq, Repr

/-- `update_bracket_counts`: scan up to 1024 × 64 = 64 KiB of the new
segment; if the segment's own scan went invalid, its counts are discarded
(the state is left unchanged). -/
def updateBracketCounts (st : JsonAggState) (bs : List Nat) : JsonAggState :=
  if (scanBrackets 65536 bs).invalid then st
  else { st with openB := st.openB + (scanBrackets 65536 bs).opens,
                 closeB := st.closeB + (scanBrackets 65536 bs).closes }

/-- `is_json_complete`: positive, matching bracket counters. -/
def isJsonComplete (st : JsonAggState) : Bool :=
  decide (0 < st.openB) && decide (st.openB = st.closeB)

/-- The clamped `copy_size` of `append_to_aggregation`: the new segment is
cut down to the space remaining below `MAX_AGGREGATED_SIZE`. -/
def aggCopySize (st : JsonAggState) (bs : List Nat) : Nat :=
  if maxAggregatedSize - st.data.length < bs.length then maxAggregatedSize - st.data.length
  else bs.length

/-- Models `append_to_aggregation`, including the verifier-driven guard
`copy_size > MAX_AGGREGATED_SIZE - 1` which rejects an exactly-64-KiB copy,
and the clamp of `copy_size` to the remaining space (which can silently
truncate the appended bytes). -/
def appendToAggregation (st : JsonAggState) (bs : List Nat) : Option JsonAggState :=
  if bs.length = 0 ∨ maxAggregatedSize < bs.length then none
  else if maxAggregatedSize ≤ st.data.length then none
  else if maxAggregatedSize - 1 < aggCopySize st bs then none
  else if maxAggregatedSize < st.data.length + aggCopySize st bs then none
  else some { st with data := st.data ++ bs.take (aggCopySize st bs) }

/-- Whitespace bytes tolerated ahead of the opening brace
(space, tab, newline, carriage return). -/
def isWhitespaceByte (c : Nat) : Bool :=
  c = 32 || c = 9 || c = 10 || c = 13

/-- The first-eight-bytes loop of `is_json_data`: skip whitespace, succeed
exactly when the first non-whitespace byte is an opening brace, fail on any
other byte or when all eight bytes are whitespace. -/
def findOpeningBrace : List Nat → Bool
  | [] => false
  | c :: rest => if isWhitespaceByte c then findOpeningBrace rest else decide (c = 123)

/-- `is_json_data`: requires at least 8 bytes, an opening brace within the
first 8 bytes (whitespace tolerated), and a valid, positive, balanced
bracket scan of the first 256 × 64 = 16 KiB of the buffer. -/
def isJsonData (bs : List Nat) : Bool :=
  if bs.length < 8 then false
  else if ¬ findOpeningBrace (bs.take 8) then false
  else if (scanBrackets 16384 bs).invalid then false
  else decide (0 < (scanBrackets 16384 bs).opens) &&
       decide ((scanBrackets 16384 bs).opens = (scanBrackets 16384 bs).closes)

/-- Stream key: (pid, file pointer). -/
abbrev StreamKey := Nat × Nat

/-- Ring-buffer data event (`struct data_event`); `buf` is truncated to
`MAX_BUF_SIZE` by `submit_json_event`. -/
structure DataEvent where
  eventType : Nat
  pid : Nat
  size : Nat
  buf : List Nat
  deriving DecidableEq, Repr

/-- `submit_json_event` (ring-buffer reservation modelled as succeeding). -/
def submitJsonEvent (key : StreamKey) (st : JsonAggState) : DataEvent :=
  { eventType := st.operation
    pid := key.1
    size := st.data.length
    buf := st.data.take maxBufSize }

/-- The stream map `json_streams`. -/
abbrev Streams := List (StreamKey × JsonAggState)

/-- The zero-initialised scratch aggregation state used for a fresh stream
(`json_scratch` per-CPU slot after the metadata initialisation). -/
def freshAggState : JsonAggState :=
  { data := [], openB := 0, closeB := 0, foundOpening := true, operation := 1 }

/-- Models `fexit/vfs_read` (`exit_vfs_read`): the stdio aggregation step.
`bs` is the `ret` bytes read; `ret ≤ 0` is modelled by an empty list.
Returns the updated `json_streams` map and the emitted event, if any. -/
def exitVfsRead (streams : Streams) (key : StreamKey) (bs : List Nat) :
    Streams × Option DataEvent :=
  if bs.length = 0 then (streams, none)
  else
    match mapGet key streams with
    | none =>
      if isJsonData bs then
        match appendToAggregation freshAggState bs with
        | none => (streams, none)
        | some st1 =>
          if isJsonComplete (updateBracketCounts st1 bs) then
            (streams, some (submitJsonEvent key (updateBracketCounts st1 bs)))
          else (mapSet key (updateBracketCounts st1 bs) streams, none)
      else (streams, none)
    | some st =>
      match appendToAggregation st bs with
      | none => (mapDel key streams, none)
      | some st1 =>
        if isJsonComplete (updateBracketCounts st1 bs) then
          (mapDel key (mapSet key (updateBracketCounts st1 bs) streams),
            some (submitJsonEvent key (updateBracketCounts st1 bs)))
        else (mapSet key (updateBracketCounts st1 bs) streams, none)

/-- `fexit/vfs_write` (`exit_vfs_write`): in the source the whole
aggregation body is commented out, so the program observes the write and
does nothing. -/
def exitVfsWrite (streams : Streams) (_key : StreamKey) (_bs : List Nat) :
    Streams × Option DataEvent :=
  (streams, none)

/-- Run a sequence of `vfs_read` observations from a given stream map,
collecting every emitted event in order. -/
def runVfsReads (streams : Streams) : List (StreamKey × List Nat) → Streams × List DataEvent
  | [] => (streams, [])
  | (key, bs) :: rest =>
    ((runVfsReads (exitVfsRead streams key bs).1 rest).1,
      (exitVfsRead streams key bs).2.toList ++
        (runVfsReads (exitVfsRead streams key bs).1 rest).2)

/-- Run a sequence of `vfs_write` observations. -/
def runVfsWrites (streams : Streams) : List (StreamKey × List Nat) → Streams × List DataEvent
  | [] => (streams, [])
  | (key, bs) :: rest =>
    ((runVfsWrites (exitVfsWrite streams key bs).1 rest).1,
      (exitVfsWrite streams key bs).2.toList ++
        (runVfsWrites (exitVfsWrite streams key bs).1 rest).2)

/-! ### Basic facts about the bracket scan -/

theorem mapGet_some_mem {κ α : Type} [DecidableEq κ] {k : κ} {m : List (κ × α)}
    {v : α} (h : mapGet k m = some v) : (k, v) ∈ m := by
  induction m with
  | nil => simp [mapGet] at h
  | cons p rest ih =>
    by_cases hk : p.1 = k
    · rw [mapGet, if_pos hk] at h
      have hp : p = (k, v) := by
        obtain ⟨a, b⟩ := p
        simp only at hk
        simp only [Option.some.injEq] at h
        rw [hk, h]
      rw [hp]
      exact List.mem_cons_self _ _
    · rw [mapGet, if_neg hk] at h
      exact List.mem_cons_of_mem _ (ih h)

theorem bracketStep_97 (s : BracketScan) : bracketStep s 97 = s := by
  simp [bracketStep]

theorem foldl_bracketStep_replicate (n : Nat) (s : BracketScan) :
    (List.replicate n 97).foldl bracketStep s = s := by
  induction n with
  | zero => rfl
  | succ n ih => simpa [List.replicate_succ, bracketStep_97] using ih

theorem findOpeningBrace_brace (l : List Nat) : findOpeningBrace (123 :: l) = true := by
  simp [findOpeningBrace, isWhitespaceByte]

theorem bracketStep_counts (s : BracketScan) (c : Nat)
    (h : s.invalid = false → s.closes ≤ s.opens) :
    (bracketStep s c).invalid = false → (bracketStep s c).closes ≤ (bracketStep s c).opens := by
  unfold bracketStep
  split_ifs with h1 h2 h3 h4
  · exact h
  · intro hf
    simp only at hf ⊢
    exact Nat.le_succ_of_le (h hf)
  · intro hf
    simp at hf
  · intro hf
    simp only at hf ⊢
    have := h hf
    omega
  · exact h

theorem foldl_bracketStep_counts (bs : List Nat) (s : BracketScan)
    (h : s.invalid = false → s.closes ≤ s.opens) :
    (bs.foldl bracketStep s).invalid = false →
      (bs.foldl bracketStep s).closes ≤ (bs.foldl bracketStep s).opens := by
  induction bs generalizing s with
  | nil => exact h
  | cons c rest ih =>
    intro hfin
    exact ih (bracketStep s c) (bracketStep_counts s c h) hfin

theorem scanBrackets_counts (limit : Nat) (bs : List Nat)
    (h : (scanBrackets limit bs).invalid = false) :
    (scanBrackets limit bs).closes ≤ (scanBrackets limit bs).opens :=
  foldl_bracketStep_counts (bs.take limit) ⟨0, 0, false⟩ (fun _ => Nat.le_refl 0) h

/-! ### Specifications of the aggregation helpers -/

theorem isJsonData_true_iff (bs : List Nat) :
    isJsonData bs = true ↔
      (8 ≤ bs.length ∧ findOpeningBrace (bs.take 8) = true ∧
       (scanBrackets 16384 bs).invalid = false ∧
       0 < (scanBrackets 16384 bs).opens ∧
       (scanBrackets 16384 bs).opens = (scanBrackets 16384 bs).closes) := by
  unfold isJsonData
  by_cases h8 : bs.length < 8
  · rw [if_pos h8]
    simp only [Bool.false_eq_true, false_iff]
    rintro ⟨hc, -⟩
    omega
  · rw [if_neg h8]
    by_cases hb : findOpeningBrace (bs.take 8) = true
    · rw [if_neg (by simp [hb])]
      by_cases hi : (scanBrackets 16384 bs).invalid = true
      · rw [if_pos hi]
        simp only [Bool.false_eq_true, false_iff]
        rintro ⟨-, -, hc, -, -⟩
        rw [hi] at hc
        cases hc
      · rw [if_neg hi]
        constructor
        · intro h
          simp only [Bool.and_eq_true, decide_eq_true_eq] at h
          exact ⟨by omega, hb, by simpa using hi, h.1, h.2⟩
        · rintro ⟨-, -, -, hpos, heq⟩
          have hpos2 : 0 < (scanBrackets 16384 bs).closes := heq ▸ hpos
          simp [hpos, heq, hpos2]
    · rw [if_pos (by simp [hb])]
      simp only [Bool.false_eq_true, false_iff]
      rintro ⟨-, hc, -⟩
      exact hb hc

theorem aggCopySize_empty {st : JsonAggState} (hd : st.data = [])
    (hle : bs.length ≤ maxAggregatedSize) : aggCopySize st bs = bs.length := by
  unfold aggCopySize
  rw [hd]
  simp only [List.length_nil, Nat.sub_zero]
  rw [if_neg (by omega)]

theorem append_empty_spec {st : JsonAggState} {bs : List Nat} {st2 : JsonAggState}
    (hd : st.data = []) (h : appendToAggregation st bs = some st2) :
    st2 = { st with data := bs } ∧ 0 < bs.length ∧ bs.length < maxAggregatedSize := by
  unfold appendToAggregation at h
  by_cases h0 : bs.length = 0 ∨ maxAggregatedSize < bs.length
  · rw [if_pos h0] at h
    cases h
  · rw [if_neg h0] at h
    push_neg at h0
    have hcopy := aggCopySize_empty hd h0.2
    rw [if_neg (by rw [hd]; simp [maxAggregatedSize, maxBufSize])] at h
    by_cases hbig : maxAggregatedSize - 1 < aggCopySize st bs
    · rw [if_pos hbig] at h
      cases h
    · rw [if_neg hbig] at h
      rw [if_neg (by rw [hcopy] at hbig ⊢; rw [hd]; simp only [List.length_nil]; omega)] at h
      rw [hcopy] at hbig
      have hlen0 : bs.length ≠ 0 := h0.1
      refine ⟨?_, by omega, by unfold maxAggregatedSize maxBufSize at hbig ⊢; omega⟩
      rw [Option.some.injEq] at h
      rw [← h, hd, hcopy]
      simp [List.take_length]

theorem append_cons_spec {st : JsonAggState} {bs : List Nat} {st2 : JsonAggState}
    (h : appendToAggregation st bs = some st2) :
    st2 = { st with data := st.data ++ bs.take (aggCopySize st bs) } ∧
      0 < aggCopySize st bs ∧ aggCopySize st bs ≤ bs.length ∧
      st.data.length + aggCopySize st bs ≤ maxAggregatedSize := by
  unfold appendToAggregation at h
  by_cases h0 : bs.length = 0 ∨ maxAggregatedSize < bs.length
  · rw [if_pos h0] at h
    cases h
  · rw [if_neg h0] at h
    push_neg at h0
    by_cases hoff : maxAggregatedSize ≤ st.data.length
    · rw [if_pos hoff] at h
      cases h
    · rw [if_neg hoff] at h
      push_neg at hoff
      by_cases hc1 : maxAggregatedSize - 1 < aggCopySize st bs
      · rw [if_pos hc1] at h
        cases h
      · rw [if_neg hc1] at h
        by_cases hc2 : maxAggregatedSize < st.data.length + aggCopySize st bs
        · rw [if_pos hc2] at h
          cases h
        · rw [if_neg hc2] at h
          rw [Option.some.injEq] at h
          refine ⟨h.symm, ?_, ?_, by omega⟩
          · unfold aggCopySize
            split
            · omega
            · omega
          · unfold aggCopySize
            split
            · omega
            · omega

theorem updateBracketCounts_invalid (st : JsonAggState) (bs : List Nat)
    (h : (scanBrackets 65536 bs).invalid = true) : updateBracketCounts st bs = st := by
  unfold updateBracketCounts
  rw [if_pos h]

theorem updateBracketCounts_valid (st : JsonAggState) (bs : List Nat)
    (h : (scanBrackets 65536 bs).invalid = false) :
    updateBracketCounts st bs =
      { st with openB := st.openB + (scanBrackets 65536 bs).opens,
                closeB := st.closeB + (scanBrackets 65536 bs).closes } := by
  unfold updateBracketCounts
  rw [h]
  simp

theorem updateBracketCounts_counts {st : JsonAggState} (bs : List Nat)
    (h : st.closeB ≤ st.openB) :
    (updateBracketCounts st bs).closeB ≤ (updateBracketCounts st bs).openB := by
  by_cases hi : (scanBrackets 65536 bs).invalid
  · rw [updateBracketCounts_invalid st bs hi]
    exact h
  · rw [updateBracketCounts_valid st bs (by simp [hi])]
    have := scanBrackets_counts 65536 bs (by simp [hi])
    simp only
    omega

theorem updateBracketCounts_data (st : JsonAggState) (bs : List Nat) :
    (updateBracketCounts st bs).data = st.data := by
  unfold updateBracketCounts
  split
  · rfl
  · rfl

/-! ### Branch equations for `exit_vfs_read` -/

theorem exitVfsRead_new_insert {streams : Streams} {key : StreamKey} {bs : List Nat}
    {st1 : JsonAggState} (hlen : ¬ bs.length = 0) (hget : mapGet key streams = none)
    (hjson : isJsonData bs = true) (happ : appendToAggregation freshAggState bs = some st1)
    (hcomp : isJsonComplete (updateBracketCounts st1 bs) = false) :
    exitVfsRead streams key bs = (mapSet key (updateBracketCounts st1 bs) streams, none) := by
  have hred : exitVfsRead streams key bs
      = if isJsonComplete (updateBracketCounts st1 bs) = true
        then (streams, some (submitJsonEvent key (updateBracketCounts st1 bs)))
        else (mapSet key (updateBracketCounts st1 bs) streams, none) := by
    unfold exitVfsRead
    rw [if_neg hlen, hget, hjson, happ]
    rfl
  rw [hred, hcomp]
  simp

theorem exitVfsRead_new_complete {streams : Streams} {key : StreamKey} {bs : List Nat}
    {st1 : JsonAggState} (hlen : ¬ bs.length = 0) (hget : mapGet key streams = none)
    (hjson : isJsonData bs = true) (happ : appendToAggregation freshAggState bs = some st1)
    (hcomp : isJsonComplete (updateBracketCounts st1 bs) = true) :
    exitVfsRead streams key bs =
      (streams, some (submitJsonEvent key (updateBracketCounts st1 bs))) := by
  have hred : exitVfsRead streams key bs
      = if isJsonComplete (updateBracketCounts st1 bs) = true
        then (streams, some (submitJsonEvent key (updateBracketCounts st1 bs)))
        else (mapSet key (updateBracketCounts st1 bs) streams, none) := by
    unfold exitVfsRead
    rw [if_neg hlen, hget, hjson, happ]
    rfl
  rw [hred, hcomp]
  simp

theorem exitVfsRead_old_complete {streams : Streams} {key : StreamKey} {bs : List Nat}
    {st st1 : JsonAggState} (hlen : ¬ bs.length = 0) (hget : mapGet key streams = some st)
    (happ : appendToAggregation st bs = some st1)
    (hcomp : isJsonComplete (updateBracketCounts st1 bs) = true) :
    exitVfsRead streams key bs =
      (mapDel key (mapSet key (updateBracketCounts st1 bs) streams),
        some (submitJsonEvent key (updateBracketCounts st1 bs))) := by
  have hred : exitVfsRead streams key bs
      = match appendToAggregation st bs with
        | none => (mapDel key streams, none)
        | some stA =>
          if isJsonComplete (updateBracketCounts stA bs) = true
          then (mapDel key (mapSet key (updateBracketCounts stA bs) streams),
            some (submitJsonEvent key (updateBracketCounts stA bs)))
          else (mapSet key (updateBracketCounts stA bs) streams, none) := by
    unfold exitVfsRead
    rw [if_neg hlen, hget]
  rw [hred, happ]
  show (if isJsonComplete (updateBracketCounts st1 bs) = true
      then (mapDel key (mapSet key (updateBracketCounts st1 bs) streams),
        some (submitJsonEvent key (updateBracketCounts st1 bs)))
      else (mapSet key (updateBracketCounts st1 bs) streams, none)) = _
  rw [hcomp]
  simp

theorem exitVfsRead_old_insert {streams : Streams} {key : StreamKey} {bs : List Nat}
    {st st1 : JsonAggState} (hlen : ¬ bs.length = 0) (hget : mapGet key streams = some st)
    (happ : appendToAggregation st bs = some st1)
    (hcomp : isJsonComplete (updateBracketCounts st1 bs) = false) :
    exitVfsRead streams key bs = (mapSet key (updateBracketCounts st1 bs) streams, none) := by
  have hred : exitVfsRead streams key bs
      = match appendToAggregation st bs with
        | none => (mapDel key streams, none)
        | some stA =>
          if isJsonComplete (updateBracketCounts stA bs) = true
          then (mapDel key (mapSet key (updateBracketCounts stA bs) streams),
            some (submitJsonEvent key (updateBracketCounts stA bs)))
          else (mapSet key (updateBracketCounts stA bs) streams, none) := by
    unfold exitVfsRead
    rw [if_neg hlen, hget]
  rw [hred, happ]
  show (if isJsonComplete (updateBracketCounts st1 bs) = true
      then (mapDel key (mapSet key (updateBracketCounts st1 bs) streams),
        some (submitJsonEvent key (updateBracketCounts st1 bs)))
      else (mapSet key (updateBracketCounts st1 bs) streams, none)) = _
  rw [hcomp]
  simp

theorem exitVfsRead_emptyBuf {streams : Streams} {key : StreamKey} {bs : List Nat}
    (hlen : bs.length = 0) : exitVfsRead streams key bs = (streams, none) := by
  unfold exitVfsRead
  rw [if_pos hlen]

theorem exitVfsRead_new_reject {streams : Streams} {key : StreamKey} {bs : List Nat}
    (hlen : ¬ bs.length = 0) (hget : mapGet key streams = none)
    (hjson : isJsonData bs = false) : exitVfsRead streams key bs = (streams, none) := by
  unfold exitVfsRead
  rw [if_neg hlen, hget, hjson]
  rfl

theorem exitVfsRead_new_appendFail {streams : Streams} {key : StreamKey} {bs : List Nat}
    (hlen : ¬ bs.length = 0) (hget : mapGet key streams = none)
    (hjson : isJsonData bs = true) (happ : appendToAggregation freshAggState bs = none) :
    exitVfsRead streams key bs = (streams, none) := by
  unfold exitVfsRead
  rw [if_neg hlen, hget, hjson, happ]
  rfl

theorem exitVfsRead_old_appendFail {streams : Streams} {key : StreamKey} {bs : List Nat}
    {st : JsonAggState} (hlen : ¬ bs.length = 0) (hget : mapGet key streams = some st)
    (happ : appendToAggregation st bs = none) :
    exitVfsRead streams key bs = (mapDel key streams, none) := by
  have hred : exitVfsRead streams key bs
      = match appendToAggregation st bs with
        | none => (mapDel key streams, none)
        | some stA =>
          if isJsonComplete (updateBracketCounts stA bs) = true
          then (mapDel key (mapSet key (updateBracketCounts stA bs) streams),
            some (submitJsonEvent key (updateBracketCounts stA bs)))
          else (mapSet key (updateBracketCounts stA bs) streams, none) := by
    unfold exitVfsRead
    rw [if_neg hlen, hget]
  rw [hred, happ]

/-! ### The stream-map invariant

Every state stored in `json_streams` was inserted by `exit_vfs_read` under
`is_json_data`, so it holds at least 8 bytes, at most 64 KiB, starts with an
opening brace after at most 7 whitespace bytes, has close counter at most
the open counter, and is not yet complete (complete states are emitted and
never stored). -/

def StreamEntryInv (st : JsonAggState) : Prop :=
  8 ≤ st.data.length ∧ st.data.length ≤ maxAggregatedSize ∧
  findOpeningBrace (st.data.take 8) = true ∧
  st.closeB ≤ st.openB ∧ isJsonComplete st = false

instance (st : JsonAggState) : Decidable (StreamEntryInv st) := by
  unfold StreamEntryInv
  infer_instance

def StreamsInv (streams : Streams) : Prop := ∀ p ∈ streams, StreamEntryInv p.2

instance (streams : Streams) : Decidable (StreamsInv streams) := by
  unfold StreamsInv
  infer_instance

theorem isJsonComplete_true_iff (st : JsonAggState) :
    isJsonComplete st = true ↔ 0 < st.openB ∧ st.openB = st.closeB := by
  simp [isJsonComplete]

theorem mem_mapDel_spec {κ α : Type} [DecidableEq κ] {k : κ} {m : List (κ × α)}
    {p : κ × α} (hp : p ∈ mapDel k m) : p ∈ m ∧ p.1 ≠ k := by
  unfold mapDel at hp
  have := List.mem_filter.mp hp
  refine ⟨this.1, ?_⟩
  simpa using this.2

theorem take8_append {l1 l2 : List Nat} (h : 8 ≤ l1.length) :
    (l1 ++ l2).take 8 = l1.take 8 := by
  rw [List.take_append_eq_append_take, Nat.sub_eq_zero_of_le h, List.take_zero,
    List.append_nil]

theorem take8_take_maxBuf (l : List Nat) : (l.take maxBufSize).take 8 = l.take 8 := by
  rw [List.take_take]
  rfl

/-- The emission/invariant behaviour of one `exit_vfs_read` step, shared by
the stream invariant claims. -/
theorem exitVfsRead_preserves (streams : Streams) (key : StreamKey) (bs : List Nat)
    (hinv : StreamsInv streams) :
    StreamsInv (exitVfsRead streams key bs).1 ∧
    (∀ ev, (exitVfsRead streams key bs).2 = some ev →
      findOpeningBrace (ev.buf.take 8) = true ∧
      mapGet key (exitVfsRead streams key bs).1 = none ∧
      ∃ st, ev = submitJsonEvent key st ∧ 0 < st.openB ∧ st.openB = st.closeB) := by
  by_cases hlen : bs.length = 0
  · rw [exitVfsRead_emptyBuf hlen]
    exact ⟨hinv, by intro ev hev; cases hev⟩
  · cases hget : mapGet key streams with
    | none =>
      by_cases hjson : isJsonData bs = true
      · obtain ⟨h8, hbrace, -, -, -⟩ := (isJsonData_true_iff bs).mp hjson
        cases happ : appendToAggregation freshAggState bs with
        | none =>
          rw [exitVfsRead_new_appendFail hlen hget hjson happ]
          exact ⟨hinv, by intro ev hev; cases hev⟩
        | some st1 =>
          obtain ⟨hst1, -, hlt⟩ := append_empty_spec rfl happ
          have hdata1 : st1.data = bs := by rw [hst1]
          have hopen1 : st1.openB = 0 := by
            rw [hst1]
            rfl
          have hclose1 : st1.closeB = 0 := by
            rw [hst1]
            rfl
          have hdata : (updateBracketCounts st1 bs).data = bs := by
            rw [updateBracketCounts_data, hdata1]
          by_cases hcomp : isJsonComplete (updateBracketCounts st1 bs) = true
          · rw [exitVfsRead_new_complete hlen hget hjson happ hcomp]
            refine ⟨hinv, ?_⟩
            intro ev hev
            rw [Option.some.injEq] at hev
            obtain ⟨hpos, heq⟩ := (isJsonComplete_true_iff _).mp hcomp
            refine ⟨?_, hget, updateBracketCounts st1 bs, hev.symm, hpos, heq⟩
            rw [← hev]
            unfold submitJsonEvent
            simp only
            rw [hdata, take8_take_maxBuf]
            exact hbrace
          · rw [exitVfsRead_new_insert hlen hget hjson happ
              (by simpa using hcomp)]
            refine ⟨?_, by intro ev hev; cases hev⟩
            intro p hp
            rcases mem_mapSet hp with hpEq | hpMem
            · rw [hpEq]
              refine ⟨?_, ?_, ?_, ?_, by simpa using hcomp⟩
              · rw [hdata]
                exact h8
              · rw [hdata]
                omega
              · rw [hdata]
                exact hbrace
              · apply updateBracketCounts_counts
                rw [hopen1, hclose1]
            · exact hinv p hpMem
      · rw [exitVfsRead_new_reject hlen hget (by simpa using hjson)]
        exact ⟨hinv, by intro ev hev; cases hev⟩
    | some st =>
      have hstEntry : StreamEntryInv st := hinv (key, st) (mapGet_some_mem hget)
      obtain ⟨hst8, hstMax, hstBrace, hstCounts, hstIncomplete⟩ := hstEntry
      cases happ : appendToAggregation st bs with
      | none =>
        rw [exitVfsRead_old_appendFail hlen hget happ]
        refine ⟨?_, by intro ev hev; cases hev⟩
        intro p hp
        exact hinv p (mem_mapDel hp)
      | some st1 =>
        obtain ⟨hst1, hcs0, hcsLe, hcsMax⟩ := append_cons_spec happ
        have hdata1 : st1.data = st.data ++ bs.take (aggCopySize st bs) := by rw [hst1]
        have hopen1 : st1.openB = st.openB := by rw [hst1]
        have hclose1 : st1.closeB = st.closeB := by rw [hst1]
        have hlen1 : st1.data.length = st.data.length + aggCopySize st bs := by
          rw [hdata1, List.length_append, List.length_take, Nat.min_eq_left hcsLe]
        have hdata : (updateBracketCounts st1 bs).data = st1.data :=
          updateBracketCounts_data st1 bs
        have htake8 : (updateBracketCounts st1 bs).data.take 8 = st.data.take 8 := by
          rw [hdata, hdata1, take8_append hst8]
        by_cases hcomp : isJsonComplete (updateBracketCounts st1 bs) = true
        · rw [exitVfsRead_old_complete hlen hget happ hcomp]
          refine ⟨?_, ?_⟩
          · intro p hp
            obtain ⟨hpMem, hpNe⟩ := mem_mapDel_spec hp
            rcases mem_mapSet hpMem with hpEq | hpMem2
            · exact absurd (by rw [hpEq]) hpNe
            · exact hinv p hpMem2
          · intro ev hev
            rw [Option.some.injEq] at hev
            obtain ⟨hpos, heq⟩ := (isJsonComplete_true_iff _).mp hcomp
            refine ⟨?_, mapGet_mapDel_self key _, updateBracketCounts st1 bs,
              hev.symm, hpos, heq⟩
            rw [← hev]
            unfold submitJsonEvent
            simp only
            rw [take8_take_maxBuf, htake8]
            exact hstBrace
        · rw [exitVfsRead_old_insert hlen hget happ (by simpa using hcomp)]
          refine ⟨?_, by intro ev hev; cases hev⟩
          intro p hp
          rcases mem_mapSet hp with hpEq | hpMem
          · rw [hpEq]
            refine ⟨?_, ?_, ?_, ?_, by simpa using hcomp⟩
            · rw [hdata, hlen1]
              omega
            · rw [hdata, hlen1]
              exact hcsMax
            · rw [htake8]
              exact hstBrace
            · apply updateBracketCounts_counts
              rw [hopen1, hclose1]
              exact hstCounts
          · exact hinv p hpMem

/-! ### The boundary counterexample buffers

`c3Buf1` is a single 16385-byte read whose first 16384 bytes form a
balanced brace sequence (so `is_json_data`, which scans only 16 KiB,
accepts it) but whose last byte underflows the full 64-KiB scan of
`update_bracket_counts`, so the segment's counts are discarded while its
bytes are kept.  A follow-up read of a two-byte balanced segment then
completes the stream and triggers emission. -/

def c3Key : StreamKey := (100, 1)

def c3Buf1 : List Nat := 123 :: (List.replicate 16382 97 ++ [125, 125])

def c3Buf2 : List Nat := [123, 125]

def c3St1 : JsonAggState :=
  { data := c3Buf1, openB := 0, closeB := 0, foundOpening := true, operation := 1 }

def c3St2pre : JsonAggState :=
  { data := c3Buf1 ++ [123, 125], openB := 0, closeB := 0, foundOpening := true, operation := 1 }

def c3St2 : JsonAggState :=
  { data := c3Buf1 ++ [123, 125], openB := 1, closeB := 1, foundOpening := true, operation := 1 }

theorem c3Buf1_length : c3Buf1.length = 16385 := by
  unfold c3Buf1
  rw [List.length_cons, List.length_append, List.length_replicate]
  decide

theorem c3Buf1_take_16384 :
    c3Buf1.take 16384 = 123 :: (List.replicate 16382 97 ++ [125]) := by
  unfold c3Buf1
  rw [show (16384 : Nat) = 16383 + 1 from rfl, List.take_succ_cons,
    List.take_append_eq_append_take,
    List.take_of_length_le (by rw [List.length_replicate]; omega), List.length_replicate]
  norm_num

theorem c3_scan16384 : scanBrackets 16384 c3Buf1 = ⟨1, 1, false⟩ := by
  unfold scanBrackets
  rw [c3Buf1_take_16384, List.foldl_cons, List.foldl_append, foldl_bracketStep_replicate]
  decide

theorem c3_scan65536 : scanBrackets 65536 c3Buf1 = ⟨1, 2, true⟩ := by
  unfold scanBrackets
  rw [List.take_of_length_le (by rw [c3Buf1_length]; omega)]
  unfold c3Buf1
  rw [List.foldl_cons, List.foldl_append, foldl_bracketStep_replicate]
  decide

theorem c3_isJsonData : isJsonData c3Buf1 = true := by
  rw [isJsonData_true_iff]
  refine ⟨by rw [c3Buf1_length]; omega, ?_, ?_, ?_, ?_⟩
  · unfold c3Buf1
    rw [show (8 : Nat) = 7 + 1 from rfl, List.take_succ_cons, findOpeningBrace_brace]
  · rw [c3_scan16384]
  · rw [c3_scan16384]
    decide
  · rw [c3_scan16384]

theorem c3_append1 : appendToAggregation freshAggState c3Buf1 = some c3St1 := by
  have hcopy : aggCopySize freshAggState c3Buf1 = c3Buf1.length :=
    aggCopySize_empty rfl (by rw [c3Buf1_length]; unfold maxAggregatedSize maxBufSize; omega)
  have htake : List.take (aggCopySize freshAggState c3Buf1) c3Buf1 = c3Buf1 := by
    rw [hcopy, List.take_length]
  unfold appendToAggregation
  rw [htake, hcopy, c3Buf1_length]
  norm_num [freshAggState, maxAggregatedSize, maxBufSize]
  rfl

theorem c3_update1 : updateBracketCounts c3St1 c3Buf1 = c3St1 :=
  updateBracketCounts_invalid _ _ (by rw [c3_scan65536])

theorem c3_step1 : exitVfsRead [] c3Key c3Buf1 = ([(c3Key, c3St1)], none) := by
  rw [exitVfsRead_new_insert (by rw [c3Buf1_length]; omega) (mapGet_nil c3Key)
    c3_isJsonData c3_append1 (by rw [c3_update1]; decide)]
  rw [c3_update1]
  rfl

theorem c3St1_data_length : c3St1.data.length = 16385 := by
  rw [show c3St1.data = c3Buf1 from rfl, c3Buf1_length]

theorem c3_append2 : appendToAggregation c3St1 c3Buf2 = some c3St2pre := by
  have hcopy : aggCopySize c3St1 c3Buf2 = 2 := by
    unfold aggCopySize
    rw [c3St1_data_length, show c3Buf2.length = 2 from rfl]
    norm_num [maxAggregatedSize, maxBufSize]
  unfold appendToAggregation
  rw [hcopy, c3St1_data_length, show c3Buf2.length = 2 from rfl]
  norm_num [maxAggregatedSize, maxBufSize]
  rfl

theorem c3_update2 : updateBracketCounts c3St2pre c3Buf2 = c3St2 := by
  rw [updateBracketCounts_valid c3St2pre c3Buf2 (by decide)]
  have h1 : (scanBrackets 65536 c3Buf2).opens = 1 := by decide
  have h2 : (scanBrackets 65536 c3Buf2).closes = 1 := by decide
  rw [h1, h2]
  rfl

theorem c3_step2 :
    exitVfsRead [(c3Key, c3St1)] c3Key c3Buf2 =
      ([], some (submitJsonEvent c3Key c3St2)) := by
  rw [exitVfsRead_old_complete (by decide) (by simp [mapGet]) c3_append2
    (by rw [c3_update2]; decide)]
  rw [c3_update2]
  simp [mapDel, mapSet, c3Key]

theorem c3_event_buf : (submitJsonEvent c3Key c3St2).buf = c3Buf1 ++ [123, 125] := by
  unfold submitJsonEvent
  simp only
  rw [show c3St2.data = c3Buf1 ++ [123, 125] from rfl]
  rw [List.take_of_length_le]
  rw [List.length_append, c3Buf1_length, show ([123, 125] : List Nat).length = 2 from rfl]
  unfold maxBufSize
  omega

theorem count_123_replicate_97 (n : Nat) : (List.replicate n 97).count 123 = 0 := by
  induction n with
  | zero => rfl
  | succ n ih => simp [List.replicate_succ, List.count_cons, ih]

theorem count_125_replicate_97 (n : Nat) : (List.replicate n 97).count 125 = 0 := by
  induction n with
  | zero => rfl
  | succ n ih => simp [List.replicate_succ, List.count_cons, ih]

theorem c3_buf_count_open : (c3Buf1 ++ [123, 125]).count 123 = 2 := by
  unfold c3Buf1
  rw [List.count_append, List.count_cons, List.count_append, count_123_replicate_97]
  decide

theorem c3_buf_count_close : (c3Buf1 ++ [123, 125]).count 125 = 3 := by
  unfold c3Buf1
  rw [List.count_append, List.count_cons, List.count_append, count_125_replicate_97]
  decide

/-! ### Supporting lemmas for the first-observation characterisation -/

theorem scanBrackets_nil (limit : Nat) : scanBrackets limit [] = ⟨0, 0, false⟩ := by
  unfold scanBrackets
  rw [List.take_nil]
  rfl

theorem append_empty_success {bs : List Nat} (h0 : bs.length ≠ 0)
    (hlt : bs.length < maxAggregatedSize) :
    appendToAggregation freshAggState bs = some { freshAggState with data := bs } := by
  have hcopy : aggCopySize freshAggState bs = bs.length :=
    aggCopySize_empty rfl (by omega)
  have hc1 : ¬ (bs.length = 0 ∨ maxAggregatedSize < bs.length) := by
    push_neg
    exact ⟨h0, by omega⟩
  have hc2 : ¬ (maxAggregatedSize ≤ freshAggState.data.length) := by decide
  have hc3 : ¬ (maxAggregatedSize - 1 < aggCopySize freshAggState bs) := by
    rw [hcopy]
    unfold maxAggregatedSize maxBufSize at hlt ⊢
    omega
  have hc4 : ¬ (maxAggregatedSize < freshAggState.data.length + aggCopySize freshAggState bs) := by
    rw [hcopy, show freshAggState.data.length = 0 from rfl]
    omega
  unfold appendToAggregation
  rw [if_neg hc1, if_neg hc2, if_neg hc3, if_neg hc4, hcopy, List.take_length]
  rfl

/-! ### Claim theorems about the kernel aggregation layer -/

/-- C3 (counterexample): a 16385-byte first read whose final byte underflows
the 64-KiB scan (so its counts are discarded while its bytes are kept),
followed by a balanced two-byte read, makes `exit_vfs_read` emit exactly one
aggregated event whose buffer holds 2 opening but 3 closing braces — the
emitted buffer does not satisfy `open-brace-count == close-brace-count`. -/
theorem c3_counterexample :
    (runVfsReads [] [(c3Key, c3Buf1), (c3Key, c3Buf2)]).2.length = 1 ∧
    ((runVfsReads [] [(c3Key, c3Buf1), (c3Key, c3Buf2)]).2.all
      (fun ev => ev.buf.count 123 != ev.buf.count 125)) = true := by
  have hA : runVfsReads [] [(c3Key, c3Buf1), (c3Key, c3Buf2)]
      = ((runVfsReads [(c3Key, c3St1)] [(c3Key, c3Buf2)]).1,
          [] ++ (runVfsReads [(c3Key, c3St1)] [(c3Key, c3Buf2)]).2) := by
    rw [runVfsReads, c3_step1]
    rfl
  have hB : runVfsReads [(c3Key, c3St1)] [(c3Key, c3Buf2)]
      = (([] : Streams), [submitJsonEvent c3Key c3St2]) := by
    rw [runVfsReads, c3_step2, runVfsReads]
    rfl
  have hrun : runVfsReads [] [(c3Key, c3Buf1), (c3Key, c3Buf2)]
      = ([], [submitJsonEvent c3Key c3St2]) := by
    rw [hA, hB]
    rfl
  constructor
  · rw [hrun]
    rfl
  · rw [hrun]
    show ([submitJsonEvent c3Key c3St2].all
      (fun ev => ev.buf.count 123 != ev.buf.count 125)) = true
    rw [List.all_cons, List.all_nil, Bool.and_true]
    rw [c3_event_buf, c3_buf_count_open, c3_buf_count_close]
    rfl

/-- C3 (amended): on every `exit_vfs_read` step over a well-formed stream
map, the stream-map invariant is preserved, and any emitted event comes from
a state whose *running counters* satisfy `open == close > 0`, has its stream
entry absent from the resulting map, and its buffer starts with an opening
brace after at most 7 whitespace bytes.  (The literal brace counts of the
emitted bytes can differ from the running counters, per the
counterexample.) -/
theorem c3_amended (streams : Streams) (key : StreamKey) (bs : List Nat)
    (hinv : StreamsInv streams) :
    StreamsInv (exitVfsRead streams key bs).1 ∧
    (∀ ev, (exitVfsRead streams key bs).2 = some ev →
      findOpeningBrace (ev.buf.take 8) = true ∧
      mapGet key (exitVfsRead streams key bs).1 = none ∧
      ∃ st, ev = submitJsonEvent key st ∧ 0 < st.openB ∧ st.openB = st.closeB) :=
  exitVfsRead_preserves streams key bs hinv

/-- Witness for C3 (amended): an 8-byte complete JSON read on an empty
stream map. -/
theorem c3_amended_witness :
    StreamsInv [] ∧
    (StreamsInv (exitVfsRead [] (5, 7) [123, 34, 97, 34, 58, 49, 125, 48]).1 ∧
    (∀ ev, (exitVfsRead [] (5, 7) [123, 34, 97, 34, 58, 49, 125, 48]).2 = some ev →
      findOpeningBrace (ev.buf.take 8) = true ∧
      mapGet (5, 7) (exitVfsRead [] (5, 7) [123, 34, 97, 34, 58, 49, 125, 48]).1 = none ∧
      ∃ st, ev = submitJsonEvent (5, 7) st ∧ 0 < st.openB ∧ st.openB = st.closeB)) :=
  ⟨by decide, c3_amended [] (5, 7) [123, 34, 97, 34, 58, 49, 125, 48] (by decide)⟩

/-- C4 (code evidence): `exit_vfs_write` in the source has its whole
aggregation body commented out, so the three fragmented writes of the
`tools/call` request produce no aggregated event at all (and hence no
`MCPEvent` downstream): the write program is a no-op on every input. -/
theorem c4_vfs_write_ignored :
    runVfsWrites [] [((100, 1), strBytes "\x7b\"jsonrpc\":\"2.0\",\"id\":"),
      ((100, 1), strBytes "2,\"method\":\"tools/call\",\"params\":\x7b\"name\":\"fs.read\""),
      ((100, 1), strBytes "\x7d\x7d")] = ([], []) ∧
    (∀ (streams : Streams) (key : StreamKey) (bs : List Nat),
      exitVfsWrite streams key bs = (streams, none)) :=
  ⟨rfl, fun _ _ _ => rfl⟩

/-- C5 (counterexample): after the single read `c3Buf1`, the stream is live
in `json_streams` even though its accumulated data violates
`close_brackets ≤ open_brackets` at its final byte (1 opening and 2 closing
braces): the underflow marked only the 64-KiB segment scan invalid, the
segment counts were discarded, and the stream was neither marked invalid nor
dropped. -/
theorem c5_counterexample :
    mapGet c3Key (exitVfsRead [] c3Key c3Buf1).1 = some c3St1 ∧
    (exitVfsRead [] c3Key c3Buf1).2 = none ∧
    c3St1.data.count 123 < c3St1.data.count 125 := by
  refine ⟨?_, ?_, ?_⟩
  · rw [c3_step1]
    simp [mapGet]
  · rw [c3_step1]
  · have hopen : c3St1.data.count 123 = 1 := by
      rw [show c3St1.data = c3Buf1 from rfl]
      unfold c3Buf1
      rw [List.count_cons, List.count_append, count_123_replicate_97]
      decide
    have hclose : c3St1.data.count 125 = 2 := by
      rw [show c3St1.data = c3Buf1 from rfl]
      unfold c3Buf1
      rw [List.count_cons, List.count_append, count_125_replicate_97]
      decide
    omega

/-- C5 (amended): a segment whose own 64-KiB bracket scan underflows is
*not* dropped: its bytes are appended to the live stream, its bracket counts
are discarded (state counters unchanged), the stream entry stays in the map,
and the running counters of every live stream still satisfy
`close_brackets ≤ open_brackets`.  An underflow drops the stream only on a
*first* observation (inside `is_json_data`). -/
theorem c5_amended (streams : Streams) (key : StreamKey) (bs : List Nat)
    (st st2 : JsonAggState) (hinv : StreamsInv streams)
    (hget : mapGet key streams = some st)
    (hseg : (scanBrackets 65536 bs).invalid = true)
    (happ : appendToAggregation st bs = some st2) :
    exitVfsRead streams key bs = (mapSet key st2 streams, none) ∧
    st2.openB = st.openB ∧ st2.closeB = st.closeB ∧
    st2.data = st.data ++ bs.take (aggCopySize st bs) ∧
    mapGet key (exitVfsRead streams key bs).1 = some st2 ∧
    (∀ p ∈ (exitVfsRead streams key bs).1, p.2.closeB ≤ p.2.openB) := by
  have hlen : ¬ bs.length = 0 := by
    intro hcon
    rw [List.length_eq_zero.mp hcon, scanBrackets_nil] at hseg
    cases hseg
  obtain ⟨hst2, -, -, -⟩ := append_cons_spec happ
  have hopen2 : st2.openB = st.openB := by
    rw [hst2]
  have hclose2 : st2.closeB = st.closeB := by
    rw [hst2]
  have hdata2 : st2.data = st.data ++ bs.take (aggCopySize st bs) := by
    rw [hst2]
  have hupd : updateBracketCounts st2 bs = st2 := updateBracketCounts_invalid st2 bs hseg
  have hcompSt : isJsonComplete st = false :=
    (hinv (key, st) (mapGet_some_mem hget)).2.2.2.2
  have hcomp2 : isJsonComplete st2 = false := by
    unfold isJsonComplete at hcompSt ⊢
    rw [hopen2, hclose2]
    exact hcompSt
  have hstep : exitVfsRead streams key bs = (mapSet key st2 streams, none) := by
    have := exitVfsRead_old_insert hlen hget happ (by rw [hupd]; exact hcomp2)
    rw [hupd] at this
    exact this
  refine ⟨hstep, hopen2, hclose2, hdata2, ?_, ?_⟩
  · rw [hstep]
    exact mapGet_mapSet_self key st2 streams
  · intro p hp
    obtain ⟨hpres, -⟩ := exitVfsRead_preserves streams key bs hinv
    obtain ⟨-, -, -, hc, -⟩ := hpres p hp
    exact hc

def c5wSt : JsonAggState :=
  { data := [123, 97, 97, 97, 97, 97, 97, 97], openB := 1, closeB := 0,
    foundOpening := true, operation := 1 }

def c5wSt2 : JsonAggState :=
  { data := [123, 97, 97, 97, 97, 97, 97, 97, 125], openB := 1, closeB := 0,
    foundOpening := true, operation := 1 }

/-- Witness for C5 (amended): a live 8-byte stream receives a lone closing
brace; the segment underflows, the bytes are kept, the counts are not. -/
theorem c5_amended_witness :
    (StreamsInv [((7, 7), c5wSt)] ∧ mapGet (7, 7) [((7, 7), c5wSt)] = some c5wSt ∧
      (scanBrackets 65536 [125]).invalid = true ∧
      appendToAggregation c5wSt [125] = some c5wSt2) ∧
    (exitVfsRead [((7, 7), c5wSt)] (7, 7) [125] = (mapSet (7, 7) c5wSt2 [((7, 7), c5wSt)], none) ∧
    c5wSt2.openB = c5wSt.openB ∧ c5wSt2.closeB = c5wSt.closeB ∧
    c5wSt2.data = c5wSt.data ++ [125].take (aggCopySize c5wSt [125]) ∧
    mapGet (7, 7) (exitVfsRead [((7, 7), c5wSt)] (7, 7) [125]).1 = some c5wSt2 ∧
    (∀ p ∈ (exitVfsRead [((7, 7), c5wSt)] (7, 7) [125]).1, p.2.closeB ≤ p.2.openB)) :=
  ⟨⟨by decide, by decide, by decide, by decide⟩,
    c5_amended [((7, 7), c5wSt)] (7, 7) [125] c5wSt c5wSt2
      (by decide) (by decide) (by decide) (by decide)⟩

/-- C7 (counterexample): the two-byte first observation `"{}"` has `{` as
its first non-whitespace byte (and positive length), yet `exit_vfs_read`
ignores it — no stream is created and nothing is emitted — because
`is_json_data` additionally requires at least 8 bytes. -/
theorem c7_counterexample :
    exitVfsRead [] (1, 1) [123, 125] = ([], none) ∧
    findOpeningBrace (([123, 125] : List Nat).take 8) = true ∧
    0 < ([123, 125] : List Nat).length := by
  decide

/-- C7 (amended): a first observation starts aggregation (emits immediately
or creates a stream entry) iff it has at least 8 bytes and fewer than
`MAX_AGGREGATED_SIZE` bytes, its first non-whitespace byte within the first
8 bytes is `{`, and the bracket scan of its first 16 KiB is valid, positive
and balanced. -/
theorem c7_amended (streams : Streams) (key : StreamKey) (bs : List Nat)
    (hget : mapGet key streams = none) (hlen : 0 < bs.length) :
    ((exitVfsRead streams key bs).2.isSome = true ∨
      (mapGet key (exitVfsRead streams key bs).1).isSome = true)
    ↔ (8 ≤ bs.length ∧ bs.length < maxAggregatedSize ∧
       findOpeningBrace (bs.take 8) = true ∧
       (scanBrackets 16384 bs).invalid = false ∧
       0 < (scanBrackets 16384 bs).opens ∧
       (scanBrackets 16384 bs).opens = (scanBrackets 16384 bs).closes) := by
  have hlen0 : ¬ bs.length = 0 := by omega
  constructor
  · intro hact
    by_cases hjson : isJsonData bs = true
    · obtain ⟨h8, hbrace, hval, hpos, hbal⟩ := (isJsonData_true_iff bs).mp hjson
      cases happ : appendToAggregation freshAggState bs with
      | none =>
        rw [exitVfsRead_new_appendFail hlen0 hget hjson happ] at hact
        rcases hact with hact | hact
        · cases hact
        · rw [hget] at hact
          cases hact
      | some st1 =>
        obtain ⟨-, -, hlt⟩ := append_empty_spec rfl happ
        exact ⟨h8, hlt, hbrace, hval, hpos, hbal⟩
    · rw [exitVfsRead_new_reject hlen0 hget (by simpa using hjson)] at hact
      rcases hact with hact | hact
      · cases hact
      · rw [hget] at hact
        cases hact
  · rintro ⟨h8, hlt, hbrace, hval, hpos, hbal⟩
    have hjson : isJsonData bs = true :=
      (isJsonData_true_iff bs).mpr ⟨h8, hbrace, hval, hpos, hbal⟩
    have happ := append_empty_success hlen0 hlt
    by_cases hcomp : isJsonComplete (updateBracketCounts { freshAggState with data := bs } bs) = true
    · left
      rw [exitVfsRead_new_complete hlen0 hget hjson happ hcomp]
      rfl
    · right
      rw [exitVfsRead_new_insert hlen0 hget hjson happ (by simpa using hcomp)]
      rw [mapGet_mapSet_self]
      rfl

/-- Witness for C7 (amended): an 8-byte complete JSON first observation on
an empty stream map satisfies both sides of the characterisation. -/
theorem c7_amended_witness :
    (mapGet (5, 7) ([] : Streams) = none ∧ 0 < ([123, 34, 97, 34, 58, 49, 125, 48] : List Nat).length) ∧
    (((exitVfsRead [] (5, 7) [123, 34, 97, 34, 58, 49, 125, 48]).2.isSome = true ∨
      (mapGet (5, 7) (exitVfsRead [] (5, 7) [123, 34, 97, 34, 58, 49, 125, 48]).1).isSome = true)
    ↔ (8 ≤ ([123, 34, 97, 34, 58, 49, 125, 48] : List Nat).length ∧
       ([123, 34, 97, 34, 58, 49, 125, 48] : List Nat).length < maxAggregatedSize ∧
       findOpeningBrace (([123, 34, 97, 34, 58, 49, 125, 48] : List Nat).take 8) = true ∧
       (scanBrackets 16384 [123, 34, 97, 34, 58, 49, 125, 48]).invalid = false ∧
       0 < (scanBrackets 16384 [123, 34, 97, 34, 58, 49, 125, 48]).opens ∧
       (scanBrackets 16384 [123, 34, 97, 34, 58, 49, 125, 48]).opens
         = (scanBrackets 16384 [123, 34, 97, 34, 58, 49, 125, 48]).closes)) :=
  ⟨⟨by decide, by decide⟩,
    c7_amended [] (5, 7) [123, 34, 97, 34, 58, 49, 125, 48] (by decide) (by decide)⟩

/-! ## Hash primitives

`crypto/sha1` (used by the parser's content-hash dedup key) and
`crypto/sha256` (used by the deterministic session-id generator) are
implemented over byte lists, with 32-bit words as `Nat` reduced modulo
`2 ^ 32`.  No claim depends on properties of the compression functions;
they are embedded so that the hashing pipeline is the source's. -/

def w32 (n : Nat) : Nat := n % 4294967296

def rotl32 (x k : Nat) : Nat :=
  w32 (Nat.lor (w32 x <<< k) (w32 x >>> (32 - k)))

def rotr32 (x k : Nat) : Nat :=
  w32 (Nat.lor (w32 x >>> k) (w32 x <<< (32 - k)))

/-- Big-endian bytes of `n`, `k` bytes wide. -/
def natToBytesBE : Nat → Nat → List Nat
  | 0, _ => []
  | k + 1, n => natToBytesBE k (n / 256) ++ [n % 256]

/-- Merkle–Damgård padding shared by SHA-1 and SHA-256: append `0x80`,
zeros up to 56 mod 64, then the bit length as 8 big-endian bytes. -/
def padMessage (bs : List Nat) : List Nat :=
  bs ++ 128 :: List.replicate ((119 - bs.length % 64) % 64) 0 ++ natToBytesBE 8 (bs.length * 8)

def bytesToWordsBE : List Nat → List Nat
  | b0 :: b1 :: b2 :: b3 :: rest =>
    (((b0 * 256 + b1) * 256 + b2) * 256 + b3) :: bytesToWordsBE rest
  | _ => []


def sha1K (i : Nat) : Nat :=
  if i < 20 then 1518500249
  else if i < 40 then 1859775393
  else if i < 60 then 2400959708
  else 3395469782

def sha1F (i b c d : Nat) : Nat :=
  if i < 20 then Nat.lor (Nat.land b c) (Nat.land (Nat.xor b 4294967295) d)
  else if i < 40 then Nat.xor (Nat.xor b c) d
  else if i < 60 then Nat.lor (Nat.lor (Nat.land b c) (Nat.land b d)) (Nat.land c d)
  else Nat.xor (Nat.xor b c) d

def sha1Schedule (block : List Nat) : List Nat :=
  (List.range 80).foldl (fun ws i =>
    if i < 16 then ws ++ [block.getD i 0]
    else ws ++ [rotl32 (Nat.xor (Nat.xor (ws.getD (i - 3) 0) (ws.getD (i - 8) 0))
      (Nat.xor (ws.getD (i - 14) 0) (ws.getD (i - 16) 0))) 1]) []

structure Sha1State where
  a : Nat
  b : Nat
  c : Nat
  d : Nat
  e : Nat

def sha1Round (st : Sha1State) (i w : Nat) : Sha1State :=
  { a := w32 (rotl32 st.a 5 + sha1F i st.b st.c st.d + st.e + sha1K i + w)
    b := st.a
    c := rotl32 st.b 30
    d := st.c
    e := st.d }

def sha1Init : Sha1State := ⟨1732584193, 4023233417, 2562383102, 271733878, 3285377520⟩

def sha1Block (st : Sha1State) (block : List Nat) : Sha1State :=
  let fin := ((List.range 80).zip (sha1Schedule block)).foldl
    (fun s p => sha1Round s p.1 p.2) st
  { a := w32 (st.a + fin.a), b := w32 (st.b + fin.b), c := w32 (st.c + fin.c),
    d := w32 (st.d + fin.d), e := w32 (st.e + fin.e) }

/-- Fold the compression function over the padded words, one 16-word block
at a time (structural recursion so that evaluation reduces in the kernel). -/
def sha1Blocks (st : Sha1State) : List Nat → Sha1State
  | w0 :: w1 :: w2 :: w3 :: w4 :: w5 :: w6 :: w7 ::
    w8 :: w9 :: w10 :: w11 :: w12 :: w13 :: w14 :: w15 :: rest =>
    sha1Blocks (sha1Block st [w0, w1, w2, w3, w4, w5, w6, w7,
      w8, w9, w10, w11, w12, w13, w14, w15]) rest
  | _ => st

def sha1Bytes (bs : List Nat) : List Nat :=
  let fin := sha1Blocks sha1Init (bytesToWordsBE (padMessage bs))
  natToBytesBE 4 fin.a ++ natToBytesBE 4 fin.b ++ natToBytesBE 4 fin.c ++
    natToBytesBE 4 fin.d ++ natToBytesBE 4 fin.e

def hexDigitChar (n : Nat) : Char :=
  if n < 10 then Char.ofNat (48 + n) else Char.ofNat (87 + n)

/-- Lowercase hex of a byte list (Go's `%x` on a digest array). -/
def bytesToHex (bs : List Nat) : String :=
  String.mk (bs.foldr (fun b acc => hexDigitChar (b / 16 % 16) :: hexDigitChar (b % 16) :: acc) [])

def sha256K : List Nat :=
  [1116352408, 1899447441, 3049323471, 3921009573, 961987163, 1508970993,
   2453635748, 2870763221, 3624381080, 310598401, 607225278, 1426881987,
   1925078388, 2162078206, 2614888103, 3248222580, 3835390401, 4022224774,
   264347078, 604807628, 770255983, 1249150122, 1555081692, 1996064986,
   2554220882, 2821834349, 2952996808, 3210313671, 3336571891, 3584528711,
   113926993, 338241895, 666307205, 773529912, 1294757372, 1396182291,
   1695183700, 1986661051, 2177026350, 2456956037, 2730485921, 2820302411,
   3259730800, 3345764771, 3516065817, 3600352804, 4094571909, 275423344,
   430227734, 506948616, 659060556, 883997877, 958139571, 1322822218,
   1537002063, 1747873779, 1955562222, 2024104815, 2227730452, 2361852424,
   2428436474, 2756734187, 3204031479, 3329325298]

def sha256SmallSigma0 (x : Nat) : Nat :=
  Nat.xor (Nat.xor (rotr32 x 7) (rotr32 x 18)) (w32 x >>> 3)

def sha256SmallSigma1 (x : Nat) : Nat :=
  Nat.xor (Nat.xor (rotr32 x 17) (rotr32 x 19)) (w32 x >>> 10)

def sha256BigSigma0 (x : Nat) : Nat :=
  Nat.xor (Nat.xor (rotr32 x 2) (rotr32 x 13)) (rotr32 x 22)

def sha256BigSigma1 (x : Nat) : Nat :=
  Nat.xor (Nat.xor (rotr32 x 6) (rotr32 x 11)) (rotr32 x 25)

def sha256Schedule (block : List Nat) : List Nat :=
  (List.range 64).foldl (fun ws i =>
    if i < 16 then ws ++ [block.getD i 0]
    else ws ++ [w32 (sha256SmallSigma1 (ws.getD (i - 2) 0) + ws.getD (i - 7) 0 +
      sha256SmallSigma0 (ws.getD (i - 15) 0) + ws.getD (i - 16) 0)]) []

structure Sha256State where
  a : Nat
  b : Nat
  c : Nat
  d : Nat
  e : Nat
  f : Nat
  g : Nat
  h : Nat

def sha256Init : Sha256State :=
  ⟨1779033703, 3144134277, 1013904242, 2773480762,
   1359893119, 2600822924, 528734635, 1541459225⟩

def sha256Round (st : Sha256State) (k w : Nat) : Sha256State :=
  let t1 := w32 (st.h + sha256BigSigma1 st.e +
    Nat.lor (Nat.land st.e st.f) (Nat.land (Nat.xor st.e 4294967295) st.g) + k + w)
  let t2 := w32 (sha256BigSigma0 st.a +
    Nat.lor (Nat.lor (Nat.land st.a st.b) (Nat.land st.a st.c)) (Nat.land st.b st.c))
  { a := w32 (t1 + t2), b := st.a, c := st.b, d := st.c,
    e := w32 (st.d + t1), f := st.e, g := st.f, h := st.g }

def sha256Block (st : Sha256State) (block : List Nat) : Sha256State :=
  let fin := (sha256K.zip (sha256Schedule block)).foldl
    (fun s p => sha256Round s p.1 p.2) st
  { a := w32 (st.a + fin.a), b := w32 (st.b + fin.b), c := w32 (st.c + fin.c),
    d := w32 (st.d + fin.d), e := w32 (st.e + fin.e), f := w32 (st.f + fin.f),
    g := w32 (st.g + fin.g), h := w32 (st.h + fin.h) }

def sha256Blocks (st : Sha256State) : List Nat → Sha256State
  | w0 :: w1 :: w2 :: w3 :: w4 :: w5 :: w6 :: w7 ::
    w8 :: w9 :: w10 :: w11 :: w12 :: w13 :: w14 :: w15 :: rest =>
    sha256Blocks (sha256Block st [w0, w1, w2, w3, w4, w5, w6, w7,
      w8, w9, w10, w11, w12, w13, w14, w15]) rest
  | _ => st

def sha256Bytes (bs : List Nat) : List Nat :=
  let fin := sha256Blocks sha256Init (bytesToWordsBE (padMessage bs))
  natToBytesBE 4 fin.a ++ natToBytesBE 4 fin.b ++ natToBytesBE 4 fin.c ++
    natToBytesBE 4 fin.d ++ natToBytesBE 4 fin.e ++ natToBytesBE 4 fin.f ++
    natToBytesBE 4 fin.g ++ natToBytesBE 4 fin.h

/-! ## JSON values and gjson-style accessors (`pkg/mcp/parser.go`)

A decoded JSON value.  `ParseDataStdio` / `ParseDataHttp` decode each
payload into a stream of JSON values with `encoding/json`; the decoder
itself is outside the embedding: an event carries the already-decoded
values, each paired with the raw text that produced it (the raw text is
what `calculateHash` hashes). -/

inductive JsonValue where
  | null
  | bool (b : Bool)
  | num (n : Int)
  | str (s : String)
  | arr (elems : List JsonValue)
  | obj (fields : List (String × JsonValue))

def lookupField (nm : String) : List (String × JsonValue) → Option JsonValue
  | [] => none
  | (k, v) :: rest => if k = nm then some v else lookupField nm rest

/-- `gjson.Result.Get` on a top-level key: defined only on objects. -/
def getField (nm : String) : JsonValue → Option JsonValue
  | JsonValue.obj fields => lookupField nm fields
  | _ => none

/-- `gjson.Result.String()`: identity on strings, decimal rendering of
numbers, `"true"`/`"false"`, and `""` for null.  (gjson renders arrays and
objects as raw JSON; that raw text never equals the short literals this
code compares against, so `""` is observationally equivalent here.) -/
def jsonToString : JsonValue → String
  | JsonValue.str s => s
  | JsonValue.num n => toString n
  | JsonValue.bool true => "true"
  | JsonValue.bool false => "false"
  | _ => ""

/-- `gjson.Result.Int()`: the numeric value of numbers, 0 otherwise. -/
def jsonToInt : JsonValue → Int
  | JsonValue.num n => n
  | _ => 0

def getFieldString (nm : String) (v : JsonValue) : String :=
  match getField nm v with
  | some x => jsonToString x
  | none => ""

def fieldExists (nm : String) (v : JsonValue) : Bool :=
  (getField nm v).isSome

/-! ## The JSON-RPC message model (`pkg/event`) -/

inductive JSONRPCMessageType where
  | request
  | response
  | notification
  deriving DecidableEq, Repr

structure JSONRPCError where
  code : Int
  message : String
  data : Option JsonValue

/-- `event.JSONRPCMessage`.  The `request` field is the back-reference a
response carries to its correlated request, which makes the type
recursive. -/
inductive JSONRPCMessage where
  | mk (messageType : JSONRPCMessageType) (id : Option (Sum Int String))
       (method : String) (params : Option (List (String × JsonValue)))
       (result : Option JsonValue) (error : Option JSONRPCError)
       (request : Option JSONRPCMessage)

def JSONRPCMessage.messageType : JSONRPCMessage → JSONRPCMessageType
  | .mk t _ _ _ _ _ _ => t

def JSONRPCMessage.id : JSONRPCMessage → Option (Sum Int String)
  | .mk _ i _ _ _ _ _ => i

def JSONRPCMessage.method : JSONRPCMessage → String
  | .mk _ _ m _ _ _ _ => m

def JSONRPCMessage.request : JSONRPCMessage → Option JSONRPCMessage
  | .mk _ _ _ _ _ _ r => r

/-- Setting the `Request` back-reference (`msg.Request = req`). -/
def JSONRPCMessage.withRequest : JSONRPCMessage → JSONRPCMessage → JSONRPCMessage
  | .mk t i m p r e _, req => .mk t i m p r e (some req)

/-- `parseID`: numeric ids become `int64`, everything else is rendered as a
string. -/
def parseID (v : JsonValue) : Sum Int String :=
  match v with
  | JsonValue.num n => Sum.inl n
  | _ => Sum.inr (jsonToString v)

/-- `parseParams`: the params object's fields (`gjson.ForEach` over an
object); non-object params contribute no fields. -/
def parseParams (v : JsonValue) : List (String × JsonValue) :=
  match v with
  | JsonValue.obj fields => fields
  | _ => []

def paramsOf (v : JsonValue) : Option (List (String × JsonValue)) :=
  match getField "params" v with
  | some p => some (parseParams p)
  | none => none

def errorOf (v : JsonValue) : Option JSONRPCError :=
  match getField "error" v with
  | some e => some { code := jsonToInt ((getField "code" e).getD JsonValue.null),
                     message := jsonToString ((getField "message" e).getD JsonValue.null),
                     data := getField "data" e }
  | none => none

/-- `parseJSONRPC`: require `jsonrpc == "2.0"`, then classify by field
presence — request (`method` and `id`), response (`id` and `result` or
`error`), notification (`method` only); reject anything else.  (The
`gjson.ValidBytes` check is subsumed by the input being a decoded value.) -/
def parseJSONRPC (v : JsonValue) : Except String JSONRPCMessage :=
  if getFieldString "jsonrpc" v ≠ "2.0" then Except.error "not JSON-RPC 2.0"
  else if fieldExists "method" v && fieldExists "id" v then
    Except.ok (JSONRPCMessage.mk JSONRPCMessageType.request
      (some (parseID ((getField "id" v).getD JsonValue.null)))
      (getFieldString "method" v) (paramsOf v) none none none)
  else if fieldExists "id" v && (fieldExists "result" v || fieldExists "error" v) then
    Except.ok (JSONRPCMessage.mk JSONRPCMessageType.response
      (some (parseID ((getField "id" v).getD JsonValue.null)))
      "" none (getField "result" v) (errorOf v) none)
  else if fieldExists "method" v then
    Except.ok (JSONRPCMessage.mk JSONRPCMessageType.notification
      none (getFieldString "method" v) (paramsOf v) none none none)
  else Except.error "unknown JSON-RPC message type"

/-- The MCP method allow-list (`allowedMCPMethods`). -/
def allowedMCPMethods : List String :=
  ["initialize", "ping", "notifications/initialized", "notifications/cancelled",
   "tools/list", "tools/call", "notifications/tools/list_changed",
   "resources/list", "resources/templates/list", "resources/read",
   "resources/subscribe", "resources/unsubscribe",
   "notifications/resources/list_changed", "notifications/resources/updated",
   "prompts/list", "prompts/get", "completion/complete",
   "notifications/prompts/list_changed", "notifications/progress",
   "logging/setLevel", "notifications/message", "sampling/createMessage",
   "elicitation/create", "roots/list", "notifications/roots/list_changed"]

/-- `validateMCPMessage`: requests and notifications must use an allow-listed
method; requests and responses must carry an id; notifications must not. -/
def validateMCPMessage (msg : JSONRPCMessage) : Except String Unit :=
  match msg.messageType with
  | JSONRPCMessageType.request =>
    if ¬ allowedMCPMethods.contains msg.method then
      Except.error ("unknown MCP method: " ++ msg.method)
    else if msg.id = none then Except.error "request message has no id"
    else Except.ok ()
  | JSONRPCMessageType.response =>
    if msg.id = none then Except.error "response message has no id"
    else Except.ok ()
  | JSONRPCMessageType.notification =>
    if ¬ allowedMCPMethods.contains msg.method then
      Except.error ("unknown MCP method: " ++ msg.method)
    else if ¬ msg.id = none then Except.error "notification message has id"
    else Except.ok ()

/-! ## Process chains (`pkg/event`, `ProcessChain`) -/

structure ProcessHop where
  fromPID : Nat
  fromComm : String
  toPID : Nat
  toComm : String
  timestamp : Nat
  deriving DecidableEq, Repr

/-- `ProcessChain.CorrelationSignature`: normalised `min<->max` pid pair of
the first hop, `""` on an empty chain. -/
def correlationSignature : List ProcessHop → String
  | [] => ""
  | h :: _ =>
    if h.toPID < h.fromPID then toString h.toPID ++ "<->" ++ toString h.fromPID
    else toString h.fromPID ++ "<->" ++ toString h.toPID

/-- `ProcessChain.AddHop`: append unless a hop with the same
(from-pid, to-pid) pair is already present; returns whether it appended. -/
def addHop (hops : List ProcessHop) (h : ProcessHop) : List ProcessHop × Bool :=
  if hops.any (fun e => e.fromPID = h.fromPID && e.toPID = h.toPID) then (hops, false)
  else (hops ++ [h], true)

/-! ## The parser state (`mcp.Parser`)

The two expirable LRU caches are modelled as association lists whose
entries carry their insertion time; a `Get` treats an entry as absent once
`now` reaches `insertedAt + TTL`.  (The size bound of 4096 entries is not
modelled; no claim involves capacity eviction.) -/

structure CacheEntry (α : Type) where
  value : α
  insertedAt : Nat

/-- 5 s in nanoseconds. -/
def requestIDCacheTTL : Nat := 5000000000

/-- 2 s in nanoseconds. -/
def seenHashCacheTTL : Nat := 2000000000

def cacheGet {α : Type} (ttl now : Nat) (k : String)
    (c : List (String × CacheEntry α)) : Option α :=
  match mapGet k c with
  | some e => if now < e.insertedAt + ttl then some e.value else none
  | none => none

def cacheAdd {α : Type} (now : Nat) (k : String) (v : α)
    (c : List (String × CacheEntry α)) : List (String × CacheEntry α) :=
  mapSet k ⟨v, now⟩ c

structure MessageMetadata where
  contentHash : String
  hops : List ProcessHop
  firstSeen : Nat

structure ParserState where
  requestIDCache : List (String × CacheEntry JSONRPCMessage)
  seenHashCache : List (String × CacheEntry MessageMetadata)

def emptyParserState : ParserState := ⟨[], []⟩

/-- `calculateHash`: lowercase hex of the SHA-1 of the raw JSON bytes. -/
def calculateHash (raw : String) : String :=
  bytesToHex (sha1Bytes (strBytes raw))

/-- `idToCacheKey`: `"i:<id>"` for integer ids, `"s:<id>"` otherwise, plus
`"|<corr-sig>"` when a process chain with a non-empty correlation signature
is supplied. -/
def baseIdKey : Sum Int String → String
  | Sum.inl n => "i:" ++ toString n
  | Sum.inr s => "s:" ++ s

def idToCacheKey (id : Sum Int String) (chain : Option (List ProcessHop)) : String :=
  match chain with
  | some hops =>
    if correlationSignature hops = "" then baseIdKey id
    else baseIdKey id ++ "|" ++ correlationSignature hops
  | none => baseIdKey id

/-- `getOrCreateMessageMetadata`: on a hit, add the hop to the existing
chain (entry keeps its insertion time — the Go code mutates the cached
metadata through a pointer) and report a duplicate; on a miss, insert fresh
metadata whose chain is just this hop. -/
def getOrCreateMessageMetadata (st : ParserState) (now : Nat) (hash : String)
    (hop : ProcessHop) : ParserState × MessageMetadata × Bool :=
  match mapGet hash st.seenHashCache with
  | some e =>
    if now < e.insertedAt + seenHashCacheTTL then
      ({ st with seenHashCache := (mapSet hash
          ⟨{ e.value with hops := (addHop e.value.hops hop).1 }, e.insertedAt⟩
          st.seenHashCache) },
        { e.value with hops := (addHop e.value.hops hop).1 }, false)
    else
      ({ st with seenHashCache := (cacheAdd now hash ⟨hash, [hop], now⟩ st.seenHashCache) },
        ⟨hash, [hop], now⟩, true)
  | none =>
    ({ st with seenHashCache := (cacheAdd now hash ⟨hash, [hop], now⟩ st.seenHashCache) },
      ⟨hash, [hop], now⟩, true)

/-- `cacheRequestMessage`. -/
def cacheRequestMessage (st : ParserState) (now : Nat) (msg : JSONRPCMessage)
    (chain : Option (List ProcessHop)) : Except String ParserState :=
  match msg.id with
  | none => Except.error "invalid message"
  | some i =>
    match msg.request with
    | some _ => Except.error "message already has Request field set"
    | none =>
      Except.ok { st with requestIDCache := (cacheAdd now (idToCacheKey i chain) msg
        st.requestIDCache) }

/-- `getRequestByID`. -/
def getRequestByID (st : ParserState) (now : Nat) (id : Option (Sum Int String))
    (chain : Option (List ProcessHop)) : Option JSONRPCMessage :=
  match id with
  | none => none
  | some i => cacheGet requestIDCacheTTL now (idToCacheKey i chain) st.requestIDCache

/-- `handleRequestResponseCorrelation`: requests are cached under their key;
responses look the key up, fail when absent, and embed the cached request on
success; notifications pass through.  For HTTP the process chain is
ignored. -/
def handleRequestResponseCorrelation (st : ParserState) (now : Nat)
    (msg : JSONRPCMessage) (chain : List ProcessHop) (isHTTP : Bool) :
    Except String (ParserState × JSONRPCMessage) :=
  match msg.messageType with
  | JSONRPCMessageType.request =>
    match cacheRequestMessage st now msg (if isHTTP then none else some chain) with
    | Except.error e => Except.error e
    | Except.ok st2 => Except.ok (st2, msg)
  | JSONRPCMessageType.response =>
    match getRequestByID st now msg.id (if isHTTP then none else some chain) with
    | none => Except.error "response without matching request ID"
    | some req => Except.ok (st, msg.withRequest req)
  | JSONRPCMessageType.notification => Except.ok (st, msg)

/-! ## Event processing (`ParseDataStdio` / `ParseDataHttp`) -/

inductive TransportType where
  | stdio
  | http
  deriving DecidableEq, Repr

/-- The endpoint fields of an `FSAggregatedEvent` used by the parser. -/
structure StdioInfo where
  fromPID : Nat
  fromComm : String
  toPID : Nat
  toComm : String
  deriving DecidableEq, Repr

/-- The endpoint fields of an HTTP request/response/SSE event used by the
parser. -/
structure HttpInfo where
  pid : Nat
  comm : String
  host : String
  isRequest : Bool
  deriving DecidableEq, Repr

/-- `event.MCPEvent`, with the process chain snapshotted as a hop list. -/
structure MCPEvent where
  timestamp : Nat
  transportType : TransportType
  stdioEndpoints : Option StdioInfo
  httpEndpoints : Option HttpInfo
  chainHops : List ProcessHop
  msg : JSONRPCMessage
  raw : String

def hopOfStdio (ev : StdioInfo) (now : Nat) : ProcessHop :=
  ⟨ev.fromPID, ev.fromComm, ev.toPID, ev.toComm, now⟩

/-- One iteration of the `ParseDataStdio` decoder loop on a decoded value
`v` with raw text `raw`.  Returns the new state, the emitted events, and
whether the loop continues (`continue`) or aborts (`return`): duplicates
continue; parse, validation and correlation failures abort. -/
def processStdioMessage (st : ParserState) (now : Nat) (ev : StdioInfo)
    (raw : String) (v : JsonValue) : ParserState × List MCPEvent × Bool :=
  match getOrCreateMessageMetadata st now (calculateHash raw) (hopOfStdio ev now) with
  | (st1, meta, isNew) =>
    if isNew = false then (st1, [], true)
    else
      match parseJSONRPC v with
      | Except.error _ => (st1, [], false)
      | Except.ok m =>
        match validateMCPMessage m with
        | Except.error _ => (st1, [], false)
        | Except.ok _ =>
          match handleRequestResponseCorrelation st1 now m meta.hops false with
          | Except.error _ => (st1, [], false)
          | Except.ok (st2, m2) =>
            (st2, [{ timestamp := now, transportType := TransportType.stdio,
                     stdioEndpoints := some ev, httpEndpoints := none,
                     chainHops := meta.hops, msg := m2, raw := raw }], true)

/-- One iteration of the `ParseDataHttp` decoder loop.  The hop is the
degenerate pid→pid hop; correlation uses no process chain; and unlike the
stdio path, a correlation failure `continue`s instead of aborting. -/
def processHttpMessage (st : ParserState) (now : Nat) (hv : HttpInfo)
    (raw : String) (v : JsonValue) : ParserState × List MCPEvent × Bool :=
  match getOrCreateMessageMetadata st now (calculateHash raw)
      ⟨hv.pid, hv.comm, hv.pid, hv.comm, now⟩ with
  | (st1, meta, isNew) =>
    if isNew = false then (st1, [], true)
    else
      match parseJSONRPC v with
      | Except.error _ => (st1, [], false)
      | Except.ok m =>
        match validateMCPMessage m with
        | Except.error _ => (st1, [], false)
        | Except.ok _ =>
          match handleRequestResponseCorrelation st1 now m meta.hops true with
          | Except.error _ => (st1, [], true)
          | Except.ok (st2, m2) =>
            (st2, [{ timestamp := now, transportType := TransportType.http,
                     stdioEndpoints := none, httpEndpoints := some hv,
                     chainHops := meta.hops, msg := m2, raw := raw }], true)

/-- The `ParseDataStdio` decoder loop over the stream of decoded values. -/
def processStdioMessages (st : ParserState) (now : Nat) (ev : StdioInfo) :
    List (String × JsonValue) → ParserState × List MCPEvent
  | [] => (st, [])
  | (raw, v) :: rest =>
    match processStdioMessage st now ev raw v with
    | (st1, evs, cont) =>
      if cont then
        match processStdioMessages st1 now ev rest with
        | (st2, evs2) => (st2, evs ++ evs2)
      else (st1, evs)

/-- The `ParseDataHttp` decoder loop. -/
def processHttpMessages (st : ParserState) (now : Nat) (hv : HttpInfo) :
    List (String × JsonValue) → ParserState × List MCPEvent
  | [] => (st, [])
  | (raw, v) :: rest =>
    match processHttpMessage st now hv raw v with
    | (st1, evs, cont) =>
      if cont then
        match processHttpMessages st1 now hv rest with
        | (st2, evs2) => (st2, evs ++ evs2)
      else (st1, evs)

/-- A sequence of single-message stdio observations of the same payload,
each a separate `FSAggregatedEvent` with its own endpoints and time. -/
def runStdioObservations (raw : String) (v : JsonValue) (st : ParserState) :
    List (StdioInfo × Nat) → ParserState × List MCPEvent
  | [] => (st, [])
  | (info, t) :: rest =>
    match processStdioMessage st t info raw v with
    | (st1, evs, _) =>
      match runStdioObservations raw v st1 rest with
      | (st2, evs2) => (st2, evs ++ evs2)

/-- The chain produced by folding `AddHop` over observed hops. -/
def dedupHops (start : List ProcessHop) (obs : List (StdioInfo × Nat)) : List ProcessHop :=
  obs.foldl (fun acc p => (addHop acc (hopOfStdio p.1 p.2)).1) start

/-- The degenerate pid→pid hop `ParseDataHttp` uses. -/
def hopOfHttp (hv : HttpInfo) (now : Nat) : ProcessHop :=
  ⟨hv.pid, hv.comm, hv.pid, hv.comm, now⟩

/-- A sequence of single-message HTTP observations of the same payload,
each a separate `ParseDataHttp` call with its own endpoints and time. -/
def runHttpObservations (raw : String) (v : JsonValue) (st : ParserState) :
    List (HttpInfo × Nat) → ParserState × List MCPEvent
  | [] => (st, [])
  | (info, t) :: rest =>
    match processHttpMessage st t info raw v with
    | (st1, evs, _) =>
      match runHttpObservations raw v st1 rest with
      | (st2, evs2) => (st2, evs ++ evs2)

def dedupHopsHttp (start : List ProcessHop) (obs : List (HttpInfo × Nat)) : List ProcessHop :=
  obs.foldl (fun acc p => (addHop acc (hopOfHttp p.1 p.2)).1) start

/-! ## Reduction lemmas for the parser pipeline -/

theorem getOrCreate_fresh (st : ParserState) (now : Nat) (hash : String) (hop : ProcessHop)
    (hget : mapGet hash st.seenHashCache = none) :
    getOrCreateMessageMetadata st now hash hop =
      ({ st with seenHashCache := (cacheAdd now hash ⟨hash, [hop], now⟩ st.seenHashCache) },
        ⟨hash, [hop], now⟩, true) := by
  unfold getOrCreateMessageMetadata
  rw [hget]

theorem getOrCreate_dup (st : ParserState) (now : Nat) (hash : String) (hop : ProcessHop)
    (meta : MessageMetadata) (ins : Nat)
    (hget : mapGet hash st.seenHashCache = some ⟨meta, ins⟩)
    (htime : now < ins + seenHashCacheTTL) :
    getOrCreateMessageMetadata st now hash hop =
      ({ st with seenHashCache := (mapSet hash
          ⟨{ meta with hops := (addHop meta.hops hop).1 }, ins⟩ st.seenHashCache) },
        { meta with hops := (addHop meta.hops hop).1 }, false) := by
  unfold getOrCreateMessageMetadata
  rw [hget]
  dsimp only
  rw [if_pos htime]

theorem withRequest_messageType (m req : JSONRPCMessage) :
    (m.withRequest req).messageType = m.messageType := by
  cases m
  rfl

theorem withRequest_request (m req : JSONRPCMessage) :
    (m.withRequest req).request = some req := by
  cases m
  rfl

theorem correlation_response_miss (st : ParserState) (now : Nat) (m : JSONRPCMessage)
    (chain : List ProcessHop) (isHTTP : Bool) (i : Sum Int String)
    (hty : m.messageType = JSONRPCMessageType.response) (hid : m.id = some i)
    (hmiss : cacheGet requestIDCacheTTL now
      (idToCacheKey i (if isHTTP then none else some chain)) st.requestIDCache = none) :
    handleRequestResponseCorrelation st now m chain isHTTP
      = Except.error "response without matching request ID" := by
  have hlook : getRequestByID st now m.id (if isHTTP then none else some chain) = none := by
    unfold getRequestByID
    rw [hid]
    exact hmiss
  unfold handleRequestResponseCorrelation
  rw [hty]
  dsimp only
  rw [hlook]

theorem correlation_response_hit (st : ParserState) (now : Nat) (m : JSONRPCMessage)
    (chain : List ProcessHop) (isHTTP : Bool) (i : Sum Int String) (req : JSONRPCMessage)
    (hty : m.messageType = JSONRPCMessageType.response) (hid : m.id = some i)
    (hhit : cacheGet requestIDCacheTTL now
      (idToCacheKey i (if isHTTP then none else some chain)) st.requestIDCache = some req) :
    handleRequestResponseCorrelation st now m chain isHTTP
      = Except.ok (st, m.withRequest req) := by
  have hlook : getRequestByID st now m.id (if isHTTP then none else some chain) = some req := by
    unfold getRequestByID
    rw [hid]
    exact hhit
  unfold handleRequestResponseCorrelation
  rw [hty]
  dsimp only
  rw [hlook]

theorem correlation_ok_cases {st : ParserState} {now : Nat} {m : JSONRPCMessage}
    {chain : List ProcessHop} {isHTTP : Bool} {st2 : ParserState} {m2 : JSONRPCMessage}
    (h : handleRequestResponseCorrelation st now m chain isHTTP = Except.ok (st2, m2)) :
    (m.messageType = JSONRPCMessageType.request ∧ m2 = m) ∨
    (m.messageType = JSONRPCMessageType.response ∧ ∃ req, m2 = m.withRequest req) ∨
    (m.messageType = JSONRPCMessageType.notification ∧ m2 = m ∧ st2 = st) := by
  unfold handleRequestResponseCorrelation at h
  cases hty : m.messageType with
  | request =>
    rw [hty] at h
    dsimp only at h
    cases hcrm : cacheRequestMessage st now m (if isHTTP then none else some chain) with
    | error e =>
      rw [hcrm] at h
      cases h
    | ok stx =>
      rw [hcrm] at h
      dsimp only at h
      rw [Except.ok.injEq, Prod.mk.injEq] at h
      exact Or.inl ⟨rfl, h.2.symm⟩
  | response =>
    rw [hty] at h
    dsimp only at h
    cases hreq : getRequestByID st now m.id (if isHTTP then none else some chain) with
    | none =>
      rw [hreq] at h
      cases h
    | some req =>
      rw [hreq] at h
      dsimp only at h
      rw [Except.ok.injEq, Prod.mk.injEq] at h
      exact Or.inr (Or.inl ⟨rfl, req, h.2.symm⟩)
  | notification =>
    rw [hty] at h
    dsimp only at h
    rw [Except.ok.injEq, Prod.mk.injEq] at h
    exact Or.inr (Or.inr ⟨rfl, h.2.symm, h.1.symm⟩)

theorem correlation_ok_seen {st : ParserState} {now : Nat} {m : JSONRPCMessage}
    {chain : List ProcessHop} {isHTTP : Bool} {st2 : ParserState} {m2 : JSONRPCMessage}
    (h : handleRequestResponseCorrelation st now m chain isHTTP = Except.ok (st2, m2)) :
    st2.seenHashCache = st.seenHashCache := by
  unfold handleRequestResponseCorrelation at h
  cases hty : m.messageType with
  | request =>
    rw [hty] at h
    dsimp only at h
    cases hcrm : cacheRequestMessage st now m (if isHTTP then none else some chain) with
    | error e =>
      rw [hcrm] at h
      cases h
    | ok stx =>
      rw [hcrm] at h
      dsimp only at h
      rw [Except.ok.injEq, Prod.mk.injEq] at h
      have hseen : stx.seenHashCache = st.seenHashCache := by
        unfold cacheRequestMessage at hcrm
        cases hid : m.id with
        | none =>
          rw [hid] at hcrm
          cases hcrm
        | some i =>
          rw [hid] at hcrm
          dsimp only at hcrm
          cases hreq : m.request with
          | none =>
            rw [hreq] at hcrm
            dsimp only at hcrm
            rw [Except.ok.injEq] at hcrm
            rw [← hcrm]
          | some r =>
            rw [hreq] at hcrm
            cases hcrm
      rw [← h.1]
      exact hseen
  | response =>
    rw [hty] at h
    dsimp only at h
    cases hreq : getRequestByID st now m.id (if isHTTP then none else some chain) with
    | none =>
      rw [hreq] at h
      cases h
    | some req =>
      rw [hreq] at h
      dsimp only at h
      rw [Except.ok.injEq, Prod.mk.injEq] at h
      rw [← h.1]
  | notification =>
    rw [hty] at h
    dsimp only at h
    rw [Except.ok.injEq, Prod.mk.injEq] at h
    rw [← h.1]

theorem processStdioMessage_events (st : ParserState) (now : Nat) (ev : StdioInfo)
    (raw : String) (v : JsonValue) :
    ∀ e ∈ (processStdioMessage st now ev raw v).2.1,
      e.msg.messageType = JSONRPCMessageType.response → e.msg.request.isSome = true := by
  unfold processStdioMessage
  rcases hgo : getOrCreateMessageMetadata st now (calculateHash raw) (hopOfStdio ev now)
    with ⟨st1, meta, isNew⟩
  dsimp only
  by_cases hNew : isNew = false
  · rw [if_pos hNew]
    intro e he
    cases he
  · rw [if_neg hNew]
    cases hp : parseJSONRPC v with
    | error e0 =>
      dsimp only
      intro e he
      cases he
    | ok m =>
      dsimp only
      cases hv : validateMCPMessage m with
      | error e0 =>
        dsimp only
        intro e he
        cases he
      | ok u =>
        dsimp only
        cases hcorr : handleRequestResponseCorrelation st1 now m meta.hops false with
        | error e0 =>
          dsimp only
          intro e he
          cases he
        | ok p =>
          obtain ⟨st2, m2⟩ := p
          dsimp only
          intro e he
          rw [List.mem_singleton] at he
          rw [he]
          intro hty
          dsimp only at hty
          rcases correlation_ok_cases hcorr with ⟨h1, h2⟩ | ⟨h1, req, h2⟩ | ⟨h1, h2, h3⟩
          · rw [h2, h1] at hty
            cases hty
          · rw [h2, withRequest_request]
            rfl
          · rw [h2, h1] at hty
            cases hty

theorem processHttpMessage_events (st : ParserState) (now : Nat) (hv : HttpInfo)
    (raw : String) (v : JsonValue) :
    ∀ e ∈ (processHttpMessage st now hv raw v).2.1,
      e.msg.messageType = JSONRPCMessageType.response → e.msg.request.isSome = true := by
  unfold processHttpMessage
  rcases hgo : getOrCreateMessageMetadata st now (calculateHash raw)
    ⟨hv.pid, hv.comm, hv.pid, hv.comm, now⟩ with ⟨st1, meta, isNew⟩
  dsimp only
  by_cases hNew : isNew = false
  · rw [if_pos hNew]
    intro e he
    cases he
  · rw [if_neg hNew]
    cases hp : parseJSONRPC v with
    | error e0 =>
      dsimp only
      intro e he
      cases he
    | ok m =>
      dsimp only
      cases hval : validateMCPMessage m with
      | error e0 =>
        dsimp only
        intro e he
        cases he
      | ok u =>
        dsimp only
        cases hcorr : handleRequestResponseCorrelation st1 now m meta.hops true with
        | error e0 =>
          dsimp only
          intro e he
          cases he
        | ok p =>
          obtain ⟨st2, m2⟩ := p
          dsimp only
          intro e he
          rw [List.mem_singleton] at he
          rw [he]
          intro hty
          dsimp only at hty
          rcases correlation_ok_cases hcorr with ⟨h1, h2⟩ | ⟨h1, req, h2⟩ | ⟨h1, h2, h3⟩
          · rw [h2, h1] at hty
            cases hty
          · rw [h2, withRequest_request]
            rfl
          · rw [h2, h1] at hty
            cases hty

theorem processStdioMessages_events (now : Nat) (ev : StdioInfo)
    (msgs : List (String × JsonValue)) :
    ∀ (st : ParserState), ∀ e ∈ (processStdioMessages st now ev msgs).2,
      e.msg.messageType = JSONRPCMessageType.response → e.msg.request.isSome = true := by
  induction msgs with
  | nil =>
    intro st e he
    cases he
  | cons p rest ih =>
    intro st e he
    obtain ⟨raw, v⟩ := p
    rw [processStdioMessages] at he
    rcases hstep : processStdioMessage st now ev raw v with ⟨st1, evs, cont⟩
    rw [hstep] at he
    dsimp only at he
    by_cases hcont : cont = true
    · rw [if_pos hcont] at he
      rcases hrec : processStdioMessages st1 now ev rest with ⟨st2, evs2⟩
      rw [hrec] at he
      dsimp only at he
      rcases List.mem_append.mp he with hmem | hmem
      · have := processStdioMessage_events st now ev raw v e
        rw [hstep] at this
        exact this hmem
      · have := ih st1 e
        rw [hrec] at this
        exact this hmem
    · rw [if_neg hcont] at he
      have := processStdioMessage_events st now ev raw v e
      rw [hstep] at this
      exact this he

theorem processHttpMessages_events (now : Nat) (hv : HttpInfo)
    (msgs : List (String × JsonValue)) :
    ∀ (st : ParserState), ∀ e ∈ (processHttpMessages st now hv msgs).2,
      e.msg.messageType = JSONRPCMessageType.response → e.msg.request.isSome = true := by
  induction msgs with
  | nil =>
    intro st e he
    cases he
  | cons p rest ih =>
    intro st e he
    obtain ⟨raw, v⟩ := p
    rw [processHttpMessages] at he
    rcases hstep : processHttpMessage st now hv raw v with ⟨st1, evs, cont⟩
    rw [hstep] at he
    dsimp only at he
    by_cases hcont : cont = true
    · rw [if_pos hcont] at he
      rcases hrec : processHttpMessages st1 now hv rest with ⟨st2, evs2⟩
      rw [hrec] at he
      dsimp only at he
      rcases List.mem_append.mp he with hmem | hmem
      · have := processHttpMessage_events st now hv raw v e
        rw [hstep] at this
        exact this hmem
      · have := ih st1 e
        rw [hrec] at this
        exact this hmem
    · rw [if_neg hcont] at he
      have := processHttpMessage_events st now hv raw v e
      rw [hstep] at this
      exact this he

/-- C1 (confirmed): a parsed response is looked up in the request cache
under `(id, normalized pid pair)` for STDIO and under `id` alone for HTTP;
with no cached request the correlation step fails (and the parser then
emits nothing for that response), with a cached request the response
message embeds it; consequently every `MCPEvent` emitted by either decoder
loop whose message is a response carries an embedded request. -/
theorem c1_response_correlation :
    (∀ (st : ParserState) (now : Nat) (m : JSONRPCMessage) (chain : List ProcessHop)
        (isHTTP : Bool) (i : Sum Int String),
      m.messageType = JSONRPCMessageType.response → m.id = some i →
      (cacheGet requestIDCacheTTL now
          (idToCacheKey i (if isHTTP then none else some chain)) st.requestIDCache = none →
        handleRequestResponseCorrelation st now m chain isHTTP
          = Except.error "response without matching request ID") ∧
      (∀ req, cacheGet requestIDCacheTTL now
          (idToCacheKey i (if isHTTP then none else some chain)) st.requestIDCache = some req →
        handleRequestResponseCorrelation st now m chain isHTTP
          = Except.ok (st, m.withRequest req) ∧ (m.withRequest req).request = some req)) ∧
    (∀ (st : ParserState) (now : Nat) (ev : StdioInfo) (msgs : List (String × JsonValue)),
      ∀ e ∈ (processStdioMessages st now ev msgs).2,
        e.msg.messageType = JSONRPCMessageType.response → e.msg.request.isSome = true) ∧
    (∀ (st : ParserState) (now : Nat) (hv : HttpInfo) (msgs : List (String × JsonValue)),
      ∀ e ∈ (processHttpMessages st now hv msgs).2,
        e.msg.messageType = JSONRPCMessageType.response → e.msg.request.isSome = true) := by
  refine ⟨?_, ?_, ?_⟩
  · intro st now m chain isHTTP i hty hid
    refine ⟨fun hmiss => correlation_response_miss st now m chain isHTTP i hty hid hmiss,
      fun req hhit => ⟨correlation_response_hit st now m chain isHTTP i req hty hid hhit,
        withRequest_request m req⟩⟩
  · intro st now ev msgs
    exact processStdioMessages_events now ev msgs st
  · intro st now hv msgs
    exact processHttpMessages_events now hv msgs st

def c1ReqV : JsonValue :=
  JsonValue.obj [("jsonrpc", JsonValue.str "2.0"), ("id", JsonValue.num 1),
    ("method", JsonValue.str "initialize")]

def c1RespV : JsonValue :=
  JsonValue.obj [("jsonrpc", JsonValue.str "2.0"), ("id", JsonValue.num 1),
    ("result", JsonValue.obj [])]

def c1Info : StdioInfo := ⟨100, "client", 200, "server"⟩

def c1Run : ParserState × List MCPEvent :=
  processStdioMessages emptyParserState 0 c1Info [("c1req", c1ReqV), ("c1resp", c1RespV)]

def defaultMCPEvent : MCPEvent :=
  ⟨0, TransportType.stdio, none, none, [],
    JSONRPCMessage.mk JSONRPCMessageType.request none "" none none none none, ""⟩

set_option maxRecDepth 40000 in
/-- Witness for C1: a request then its response through the stdio loop; the
emitted response event carries the embedded request. -/
theorem c1_witness :
    ((c1Run.2.getD 1 defaultMCPEvent) ∈ c1Run.2 ∧
      (c1Run.2.getD 1 defaultMCPEvent).msg.messageType = JSONRPCMessageType.response) ∧
    (c1Run.2.getD 1 defaultMCPEvent).msg.request.isSome = true := by
  have hlen : 1 < c1Run.2.length := by decide
  have hmem : c1Run.2.getD 1 defaultMCPEvent ∈ c1Run.2 := by
    rw [List.getD_eq_getElem c1Run.2 defaultMCPEvent hlen]
    exact List.getElem_mem hlen
  have hty : (c1Run.2.getD 1 defaultMCPEvent).msg.messageType = JSONRPCMessageType.response := by
    decide
  exact ⟨⟨hmem, hty⟩, c1_response_correlation.2.1 emptyParserState 0 c1Info
    [("c1req", c1ReqV), ("c1resp", c1RespV)] _ hmem hty⟩

/-! ## Duplicate-suppression lemmas (C2, C10) -/

theorem processStdioMessage_dup (st : ParserState) (now : Nat) (ev : StdioInfo)
    (raw : String) (v : JsonValue) (meta : MessageMetadata) (ins : Nat)
    (hget : mapGet (calculateHash raw) st.seenHashCache = some ⟨meta, ins⟩)
    (htime : now < ins + seenHashCacheTTL) :
    processStdioMessage st now ev raw v =
      ({ st with seenHashCache := (mapSet (calculateHash raw)
          ⟨{ meta with hops := (addHop meta.hops (hopOfStdio ev now)).1 }, ins⟩
          st.seenHashCache) }, [], true) := by
  unfold processStdioMessage
  rw [getOrCreate_dup st now _ _ meta ins hget htime]
  rfl

/-- `parsesAsMCP`: the payload survives both `parseJSONRPC` and
`validateMCPMessage`. -/
def parsesAsMCP (v : JsonValue) : Bool :=
  match parseJSONRPC v with
  | Except.error _ => false
  | Except.ok m =>
    match validateMCPMessage m with
    | Except.error _ => false
    | Except.ok _ => true

theorem processStdioMessage_fresh_invalid (st : ParserState) (now : Nat) (ev : StdioInfo)
    (raw : String) (v : JsonValue)
    (hfresh : mapGet (calculateHash raw) st.seenHashCache = none)
    (hbad : parsesAsMCP v = false) :
    processStdioMessage st now ev raw v =
      ({ st with seenHashCache := (cacheAdd now (calculateHash raw)
          ⟨calculateHash raw, [hopOfStdio ev now], now⟩ st.seenHashCache) }, [], false) := by
  unfold processStdioMessage
  rw [getOrCreate_fresh st now _ _ hfresh]
  dsimp only
  rw [if_neg (by simp)]
  unfold parsesAsMCP at hbad
  cases hp : parseJSONRPC v with
  | error e0 =>
    dsimp only
  | ok m =>
    dsimp only
    rw [hp] at hbad
    dsimp only at hbad
    cases hv : validateMCPMessage m with
    | error e0 =>
      dsimp only
    | ok u =>
      rw [hv] at hbad
      cases hbad

theorem processStdioMessage_fresh_seen (st : ParserState) (now : Nat) (ev : StdioInfo)
    (raw : String) (v : JsonValue)
    (hfresh : mapGet (calculateHash raw) st.seenHashCache = none) :
    (processStdioMessage st now ev raw v).1.seenHashCache
      = cacheAdd now (calculateHash raw)
          ⟨calculateHash raw, [hopOfStdio ev now], now⟩ st.seenHashCache := by
  unfold processStdioMessage
  rw [getOrCreate_fresh st now _ _ hfresh]
  dsimp only
  rw [if_neg (by simp)]
  cases hp : parseJSONRPC v with
  | error e0 =>
    dsimp only
  | ok m =>
    dsimp only
    cases hv : validateMCPMessage m with
    | error e0 =>
      dsimp only
    | ok u =>
      dsimp only
      cases hcorr : handleRequestResponseCorrelation
          { st with seenHashCache := (cacheAdd now (calculateHash raw)
            ⟨calculateHash raw, [hopOfStdio ev now], now⟩ st.seenHashCache) }
          now m [hopOfStdio ev now] false with
      | error e0 => rfl
      | ok p =>
        obtain ⟨st2, m2⟩ := p
        dsimp only
        rw [correlation_ok_seen hcorr]

theorem runObs_duplicates (raw : String) (v : JsonValue) (rest : List (StdioInfo × Nat)) :
    ∀ (st : ParserState) (meta : MessageMetadata) (ins : Nat),
      mapGet (calculateHash raw) st.seenHashCache = some ⟨meta, ins⟩ →
      (∀ p ∈ rest, p.2 < ins + seenHashCacheTTL) →
      (runStdioObservations raw v st rest).2 = [] ∧
      (runStdioObservations raw v st rest).1.requestIDCache = st.requestIDCache ∧
      mapGet (calculateHash raw) (runStdioObservations raw v st rest).1.seenHashCache
        = some ⟨{ meta with hops := dedupHops meta.hops rest }, ins⟩ := by
  induction rest with
  | nil =>
    intro st meta ins hget _
    exact ⟨rfl, rfl, hget⟩
  | cons p rest ih =>
    intro st meta ins hget htimes
    obtain ⟨info, t⟩ := p
    have htime : t < ins + seenHashCacheTTL := htimes (info, t) (List.mem_cons_self _ _)
    rw [runStdioObservations]
    rw [processStdioMessage_dup st t info raw v meta ins hget htime]
    dsimp only
    have hget1 : mapGet (calculateHash raw)
        ({ st with seenHashCache := (mapSet (calculateHash raw)
          ⟨{ meta with hops := (addHop meta.hops (hopOfStdio info t)).1 }, ins⟩
          st.seenHashCache) } : ParserState).seenHashCache
        = some ⟨{ meta with hops := (addHop meta.hops (hopOfStdio info t)).1 }, ins⟩ :=
      mapGet_mapSet_self _ _ _
    obtain ⟨h1, h2, h3⟩ := ih _ _ ins hget1 (fun q hq => htimes q (List.mem_cons_of_mem _ hq))
    rcases hrec : runStdioObservations raw v
        ({ st with seenHashCache := (mapSet (calculateHash raw)
          ⟨{ meta with hops := (addHop meta.hops (hopOfStdio info t)).1 }, ins⟩
          st.seenHashCache) } : ParserState) rest with ⟨st2, evs2⟩
    rw [hrec] at h1 h2 h3
    dsimp only at h1 h2 h3 ⊢
    exact ⟨h1, h2, h3⟩

theorem processHttpMessage_dup (st : ParserState) (now : Nat) (hv : HttpInfo)
    (raw : String) (v : JsonValue) (meta : MessageMetadata) (ins : Nat)
    (hget : mapGet (calculateHash raw) st.seenHashCache = some ⟨meta, ins⟩)
    (htime : now < ins + seenHashCacheTTL) :
    processHttpMessage st now hv raw v =
      ({ st with seenHashCache := (mapSet (calculateHash raw)
          ⟨{ meta with hops := (addHop meta.hops (hopOfHttp hv now)).1 }, ins⟩
          st.seenHashCache) }, [], true) := by
  unfold processHttpMessage
  rw [getOrCreate_dup st now _ _ meta ins hget htime]
  rfl

theorem processHttpMessage_fresh_invalid (st : ParserState) (now : Nat) (hv : HttpInfo)
    (raw : String) (v : JsonValue)
    (hfresh : mapGet (calculateHash raw) st.seenHashCache = none)
    (hbad : parsesAsMCP v = false) :
    processHttpMessage st now hv raw v =
      ({ st with seenHashCache := (cacheAdd now (calculateHash raw)
          ⟨calculateHash raw, [hopOfHttp hv now], now⟩ st.seenHashCache) }, [], false) := by
  unfold processHttpMessage
  rw [getOrCreate_fresh st now _ _ hfresh]
  dsimp only
  rw [if_neg (by simp)]
  unfold parsesAsMCP at hbad
  cases hp : parseJSONRPC v with
  | error e0 =>
    rfl
  | ok m =>
    dsimp only
    rw [hp] at hbad
    dsimp only at hbad
    cases hval : validateMCPMessage m with
    | error e0 =>
      rfl
    | ok u =>
      rw [hval] at hbad
      cases hbad

theorem runHttpObs_duplicates (raw : String) (v : JsonValue) (rest : List (HttpInfo × Nat)) :
    ∀ (st : ParserState) (meta : MessageMetadata) (ins : Nat),
      mapGet (calculateHash raw) st.seenHashCache = some ⟨meta, ins⟩ →
      (∀ p ∈ rest, p.2 < ins + seenHashCacheTTL) →
      (runHttpObservations raw v st rest).2 = [] ∧
      (runHttpObservations raw v st rest).1.requestIDCache = st.requestIDCache ∧
      mapGet (calculateHash raw) (runHttpObservations raw v st rest).1.seenHashCache
        = some ⟨{ meta with hops := dedupHopsHttp meta.hops rest }, ins⟩ := by
  induction rest with
  | nil =>
    intro st meta ins hget _
    exact ⟨rfl, rfl, hget⟩
  | cons p rest ih =>
    intro st meta ins hget htimes
    obtain ⟨info, t⟩ := p
    have htime : t < ins + seenHashCacheTTL := htimes (info, t) (List.mem_cons_self _ _)
    rw [runHttpObservations]
    rw [processHttpMessage_dup st t info raw v meta ins hget htime]
    dsimp only
    have hget1 : mapGet (calculateHash raw)
        ({ st with seenHashCache := (mapSet (calculateHash raw)
          ⟨{ meta with hops := (addHop meta.hops (hopOfHttp info t)).1 }, ins⟩
          st.seenHashCache) } : ParserState).seenHashCache
        = some ⟨{ meta with hops := (addHop meta.hops (hopOfHttp info t)).1 }, ins⟩ :=
      mapGet_mapSet_self _ _ _
    obtain ⟨h1, h2, h3⟩ := ih _ _ ins hget1 (fun q hq => htimes q (List.mem_cons_of_mem _ hq))
    rcases hrec : runHttpObservations raw v
        ({ st with seenHashCache := (mapSet (calculateHash raw)
          ⟨{ meta with hops := (addHop meta.hops (hopOfHttp info t)).1 }, ins⟩
          st.seenHashCache) } : ParserState) rest with ⟨st2, evs2⟩
    rw [hrec] at h1 h2 h3
    dsimp only at h1 h2 h3 ⊢
    exact ⟨h1, h2, h3⟩

/-! ## Chain-deduplication lemmas -/

/-- No two hops of the chain share a (from-pid, to-pid) pair. -/
def PairsNodup (hops : List ProcessHop) : Prop :=
  hops.Pairwise (fun a b => ¬ (a.fromPID = b.fromPID ∧ a.toPID = b.toPID))

theorem addHop_mem_of_mem {acc : List ProcessHop} {h p : ProcessHop} (hp : p ∈ acc) :
    p ∈ (addHop acc h).1 := by
  unfold addHop
  split
  · exact hp
  · exact List.mem_append_left _ hp

theorem addHop_pair_mem (acc : List ProcessHop) (h : ProcessHop) :
    ∃ e ∈ (addHop acc h).1, e.fromPID = h.fromPID ∧ e.toPID = h.toPID := by
  unfold addHop
  by_cases hc : (acc.any (fun e => e.fromPID = h.fromPID && e.toPID = h.toPID)) = true
  · rw [if_pos hc]
    obtain ⟨e, he, hpe⟩ := List.any_eq_true.mp hc
    refine ⟨e, he, ?_⟩
    simpa using hpe
  · rw [if_neg hc]
    exact ⟨h, List.mem_append_right _ (List.mem_singleton.mpr rfl), rfl, rfl⟩

theorem pairsNodup_addHop (acc : List ProcessHop) (h : ProcessHop)
    (hnd : PairsNodup acc) : PairsNodup (addHop acc h).1 := by
  unfold addHop
  by_cases hc : (acc.any (fun e => e.fromPID = h.fromPID && e.toPID = h.toPID)) = true
  · rw [if_pos hc]
    exact hnd
  · rw [if_neg hc]
    unfold PairsNodup at hnd ⊢
    rw [List.pairwise_append]
    refine ⟨hnd, List.pairwise_singleton _ _, ?_⟩
    intro a ha b hb
    rw [List.mem_singleton] at hb
    subst hb
    intro hcon
    apply hc
    rw [List.any_eq_true]
    exact ⟨a, ha, by simp [hcon.1, hcon.2]⟩

theorem dedup_mem_of_mem (obs : List (StdioInfo × Nat)) :
    ∀ start p, p ∈ start → p ∈ dedupHops start obs := by
  induction obs with
  | nil =>
    intro start p hp
    exact hp
  | cons q rest ih =>
    intro start p hp
    exact ih _ p (addHop_mem_of_mem hp)

theorem pairsNodup_dedup (obs : List (StdioInfo × Nat)) :
    ∀ start, PairsNodup start → PairsNodup (dedupHops start obs) := by
  induction obs with
  | nil =>
    intro start h
    exact h
  | cons q rest ih =>
    intro start h
    exact ih _ (pairsNodup_addHop start (hopOfStdio q.1 q.2) h)

theorem dedup_pair_complete (obs : List (StdioInfo × Nat)) :
    ∀ start, ∀ q ∈ obs, ∃ e ∈ dedupHops start obs,
      e.fromPID = q.1.fromPID ∧ e.toPID = q.1.toPID := by
  induction obs with
  | nil =>
    intro start q hq
    cases hq
  | cons q0 rest ih =>
    intro start q hq
    rcases List.mem_cons.mp hq with hq | hq
    · subst hq
      obtain ⟨e, he, hpe⟩ := addHop_pair_mem start (hopOfStdio q.1 q.2)
      exact ⟨e, dedup_mem_of_mem rest _ e he, hpe⟩
    · exact ih _ q hq

/-- C2 (confirmed): byte-identical payloads observed repeatedly within the
dedup TTL produce events only from the first observation (so exactly one
`MCPEvent` when the first observation emits one); each later observation
only adds its hop to the cached chain, which ends up equal to the
`AddHop`-fold of all observed hops in first-seen order — with no duplicated
(from-pid, to-pid) pair, and a hop pair present for every observation. -/
theorem c2_dedup_first_wins (raw : String) (v : JsonValue) (st0 : ParserState)
    (info0 : StdioInfo) (t0 : Nat) (rest : List (StdioInfo × Nat))
    (hfresh : mapGet (calculateHash raw) st0.seenHashCache = none)
    (htimes : ∀ p ∈ rest, p.2 < t0 + seenHashCacheTTL) :
    (runStdioObservations raw v st0 ((info0, t0) :: rest)).2
        = (processStdioMessage st0 t0 info0 raw v).2.1 ∧
    ((processStdioMessage st0 t0 info0 raw v).2.1.length = 1 →
      (runStdioObservations raw v st0 ((info0, t0) :: rest)).2.length = 1) ∧
    mapGet (calculateHash raw)
        (runStdioObservations raw v st0 ((info0, t0) :: rest)).1.seenHashCache
      = some ⟨⟨calculateHash raw, dedupHops [hopOfStdio info0 t0] rest, t0⟩, t0⟩ ∧
    PairsNodup (dedupHops [hopOfStdio info0 t0] rest) ∧
    (∀ q ∈ ((info0, t0) :: rest), ∃ e ∈ dedupHops [hopOfStdio info0 t0] rest,
      e.fromPID = q.1.fromPID ∧ e.toPID = q.1.toPID) := by
  rcases hstep : processStdioMessage st0 t0 info0 raw v with ⟨st1, evs, cont⟩
  have hseen1 : mapGet (calculateHash raw) st1.seenHashCache
      = some ⟨⟨calculateHash raw, [hopOfStdio info0 t0], t0⟩, t0⟩ := by
    have hs := processStdioMessage_fresh_seen st0 t0 info0 raw v hfresh
    rw [hstep] at hs
    dsimp only at hs
    rw [hs]
    unfold cacheAdd
    exact mapGet_mapSet_self _ _ _
  obtain ⟨h1, h2, h3⟩ := runObs_duplicates raw v rest st1
    ⟨calculateHash raw, [hopOfStdio info0 t0], t0⟩ t0 hseen1 htimes
  rcases hrec : runStdioObservations raw v st1 rest with ⟨st2, evs2⟩
  rw [hrec] at h1 h2 h3
  dsimp only at h1 h2 h3
  have hrun : runStdioObservations raw v st0 ((info0, t0) :: rest) = (st2, evs ++ evs2) := by
    rw [runStdioObservations, hstep]
    dsimp only
    rw [hrec]
  rw [hrun]
  dsimp only
  subst h1
  refine ⟨List.append_nil evs, ?_, ?_, ?_, ?_⟩
  · intro hone
    rw [List.append_nil]
    exact hone
  · exact h3
  · exact pairsNodup_dedup rest [hopOfStdio info0 t0] (List.pairwise_singleton _ _)
  · intro q hq
    rcases List.mem_cons.mp hq with hq | hq
    · subst hq
      exact ⟨hopOfStdio info0 t0,
        dedup_mem_of_mem rest _ _ (List.mem_singleton.mpr rfl), rfl, rfl⟩
    · exact dedup_pair_complete rest [hopOfStdio info0 t0] q hq

def c2V : JsonValue :=
  JsonValue.obj [("jsonrpc", JsonValue.str "2.0"), ("id", JsonValue.num 7),
    ("method", JsonValue.str "tools/list")]

def c2Info0 : StdioInfo := ⟨100, "client", 200, "proxy"⟩

def c2Info1 : StdioInfo := ⟨200, "proxy", 300, "server"⟩

set_option maxRecDepth 40000 in
/-- Witness for C2: the docker-proxy scenario — one payload seen on hops
100→200 and 200→300 within the TTL. -/
theorem c2_dedup_first_wins_witness :
    (mapGet (calculateHash "c2msg") emptyParserState.seenHashCache = none ∧
      (∀ p ∈ [(c2Info1, 1000)], p.2 < 0 + seenHashCacheTTL) ∧
      (processStdioMessage emptyParserState 0 c2Info0 "c2msg" c2V).2.1.length = 1) ∧
    ((runStdioObservations "c2msg" c2V emptyParserState ((c2Info0, 0) :: [(c2Info1, 1000)])).2
        = (processStdioMessage emptyParserState 0 c2Info0 "c2msg" c2V).2.1 ∧
    ((processStdioMessage emptyParserState 0 c2Info0 "c2msg" c2V).2.1.length = 1 →
      (runStdioObservations "c2msg" c2V emptyParserState ((c2Info0, 0) :: [(c2Info1, 1000)])).2.length = 1) ∧
    mapGet (calculateHash "c2msg")
        (runStdioObservations "c2msg" c2V emptyParserState ((c2Info0, 0) :: [(c2Info1, 1000)])).1.seenHashCache
      = some ⟨⟨calculateHash "c2msg", dedupHops [hopOfStdio c2Info0 0] [(c2Info1, 1000)], 0⟩, 0⟩ ∧
    PairsNodup (dedupHops [hopOfStdio c2Info0 0] [(c2Info1, 1000)]) ∧
    (∀ q ∈ ((c2Info0, 0) :: [(c2Info1, 1000)]),
      ∃ e ∈ dedupHops [hopOfStdio c2Info0 0] [(c2Info1, 1000)],
        e.fromPID = q.1.fromPID ∧ e.toPID = q.1.toPID)) :=
  ⟨⟨rfl, by decide, by decide⟩,
    c2_dedup_first_wins "c2msg" c2V emptyParserState c2Info0 0 [(c2Info1, 1000)]
      rfl (by decide)⟩

/-- C10 (confirmed): in both the `ParseDataStdio` and the `ParseDataHttp`
decoder loop, the seen-hash entry is created before JSON-RPC parsing and
MCP validation; when the payload fails them, the entry stays, so the first
observation emits nothing, every later observation of the same bytes within
the TTL — on either transport's loop — is classified a duplicate and emits
nothing, and the request-id cache is untouched. -/
theorem c10_failed_parse_dedup (raw : String) (v : JsonValue) (st0 : ParserState)
    (info0 : StdioInfo) (hv0 : HttpInfo) (t0 : Nat)
    (rest : List (StdioInfo × Nat)) (hrest : List (HttpInfo × Nat))
    (hfresh : mapGet (calculateHash raw) st0.seenHashCache = none)
    (hbad : parsesAsMCP v = false)
    (htimes : ∀ p ∈ rest, p.2 < t0 + seenHashCacheTTL)
    (htimesH : ∀ p ∈ hrest, p.2 < t0 + seenHashCacheTTL) :
    ((runStdioObservations raw v st0 ((info0, t0) :: rest)).2 = [] ∧
      mapGet (calculateHash raw)
          (runStdioObservations raw v st0 ((info0, t0) :: rest)).1.seenHashCache
        = some ⟨⟨calculateHash raw, dedupHops [hopOfStdio info0 t0] rest, t0⟩, t0⟩ ∧
      (runStdioObservations raw v st0 ((info0, t0) :: rest)).1.requestIDCache
        = st0.requestIDCache) ∧
    ((runHttpObservations raw v st0 ((hv0, t0) :: hrest)).2 = [] ∧
      mapGet (calculateHash raw)
          (runHttpObservations raw v st0 ((hv0, t0) :: hrest)).1.seenHashCache
        = some ⟨⟨calculateHash raw, dedupHopsHttp [hopOfHttp hv0 t0] hrest, t0⟩, t0⟩ ∧
      (runHttpObservations raw v st0 ((hv0, t0) :: hrest)).1.requestIDCache
        = st0.requestIDCache) := by
  constructor
  · have hstep := processStdioMessage_fresh_invalid st0 t0 info0 raw v hfresh hbad
    have hseen1 : mapGet (calculateHash raw)
        ({ st0 with seenHashCache := (cacheAdd t0 (calculateHash raw)
          ⟨calculateHash raw, [hopOfStdio info0 t0], t0⟩ st0.seenHashCache) } : ParserState).seenHashCache
        = some ⟨⟨calculateHash raw, [hopOfStdio info0 t0], t0⟩, t0⟩ := by
      unfold cacheAdd
      exact mapGet_mapSet_self _ _ _
    obtain ⟨h1, h2, h3⟩ := runObs_duplicates raw v rest _
      ⟨calculateHash raw, [hopOfStdio info0 t0], t0⟩ t0 hseen1 htimes
    rcases hrec : runStdioObservations raw v
        ({ st0 with seenHashCache := (cacheAdd t0 (calculateHash raw)
          ⟨calculateHash raw, [hopOfStdio info0 t0], t0⟩ st0.seenHashCache) } : ParserState) rest
      with ⟨st2, evs2⟩
    rw [hrec] at h1 h2 h3
    dsimp only at h1 h2 h3
    have hrun : runStdioObservations raw v st0 ((info0, t0) :: rest) = (st2, [] ++ evs2) := by
      rw [runStdioObservations, hstep]
      dsimp only
      rw [hrec]
    rw [hrun]
    dsimp only
    subst h1
    exact ⟨rfl, h3, h2⟩
  · have hstep := processHttpMessage_fresh_invalid st0 t0 hv0 raw v hfresh hbad
    have hseen1 : mapGet (calculateHash raw)
        ({ st0 with seenHashCache := (cacheAdd t0 (calculateHash raw)
          ⟨calculateHash raw, [hopOfHttp hv0 t0], t0⟩ st0.seenHashCache) } : ParserState).seenHashCache
        = some ⟨⟨calculateHash raw, [hopOfHttp hv0 t0], t0⟩, t0⟩ := by
      unfold cacheAdd
      exact mapGet_mapSet_self _ _ _
    obtain ⟨h1, h2, h3⟩ := runHttpObs_duplicates raw v hrest _
      ⟨calculateHash raw, [hopOfHttp hv0 t0], t0⟩ t0 hseen1 htimesH
    rcases hrec : runHttpObservations raw v
        ({ st0 with seenHashCache := (cacheAdd t0 (calculateHash raw)
          ⟨calculateHash raw, [hopOfHttp hv0 t0], t0⟩ st0.seenHashCache) } : ParserState) hrest
      with ⟨st2, evs2⟩
    rw [hrec] at h1 h2 h3
    dsimp only at h1 h2 h3
    have hrun : runHttpObservations raw v st0 ((hv0, t0) :: hrest) = (st2, [] ++ evs2) := by
      rw [runHttpObservations, hstep]
      dsimp only
      rw [hrec]
    rw [hrun]
    dsimp only
    subst h1
    exact ⟨rfl, h3, h2⟩

def c10V : JsonValue := JsonValue.obj [("foo", JsonValue.num 1)]

def c10Hv0 : HttpInfo := ⟨77, "node", "localhost:3000", true⟩

def c10Hv1 : HttpInfo := ⟨88, "node", "localhost:3000", false⟩

set_option maxRecDepth 40000 in
/-- Witness for C10: a JSON value that is not JSON-RPC 2.0, observed twice
within the TTL on the stdio loop and twice on the HTTP loop. -/
theorem c10_failed_parse_dedup_witness :
    (mapGet (calculateHash "c10msg") emptyParserState.seenHashCache = none ∧
      parsesAsMCP c10V = false ∧
      (∀ p ∈ [(c2Info1, 500)], p.2 < 0 + seenHashCacheTTL) ∧
      (∀ p ∈ [(c10Hv1, 500)], p.2 < 0 + seenHashCacheTTL)) ∧
    (((runStdioObservations "c10msg" c10V emptyParserState ((c2Info0, 0) :: [(c2Info1, 500)])).2 = [] ∧
      mapGet (calculateHash "c10msg")
          (runStdioObservations "c10msg" c10V emptyParserState ((c2Info0, 0) :: [(c2Info1, 500)])).1.seenHashCache
        = some ⟨⟨calculateHash "c10msg", dedupHops [hopOfStdio c2Info0 0] [(c2Info1, 500)], 0⟩, 0⟩ ∧
      (runStdioObservations "c10msg" c10V emptyParserState ((c2Info0, 0) :: [(c2Info1, 500)])).1.requestIDCache
        = emptyParserState.requestIDCache) ∧
    ((runHttpObservations "c10msg" c10V emptyParserState ((c10Hv0, 0) :: [(c10Hv1, 500)])).2 = [] ∧
      mapGet (calculateHash "c10msg")
          (runHttpObservations "c10msg" c10V emptyParserState ((c10Hv0, 0) :: [(c10Hv1, 500)])).1.seenHashCache
        = some ⟨⟨calculateHash "c10msg", dedupHopsHttp [hopOfHttp c10Hv0 0] [(c10Hv1, 500)], 0⟩, 0⟩ ∧
      (runHttpObservations "c10msg" c10V emptyParserState ((c10Hv0, 0) :: [(c10Hv1, 500)])).1.requestIDCache
        = emptyParserState.requestIDCache)) :=
  ⟨⟨rfl, by decide, by decide, by decide⟩,
    c10_failed_parse_dedup "c10msg" c10V emptyParserState c2Info0 c10Hv0 0
      [(c2Info1, 500)] [(c10Hv1, 500)] rfl (by decide) (by decide) (by decide)⟩

/-! ## SSL session tracking and TLS payload capture
(`pkg/ebpf/loader.go`: `ssl_new_exit`, `ssl_free_entry`,
`ssl_do_handshake_entry/exit`, `ssl_read_entry/exit`,
`ssl_read_ex_entry/exit`, `ssl_write_entry`, `ssl_write_ex_entry`)

`ssl_sessions` maps the SSL context pointer to `ssl_session
\x7bhttp_version, is_active\x7d`; `ssl_read_args`, `ssl_read_ex_args` and
`ssl_handshake_args` map the pid to the pointer saved at probe entry.
Pointers and pids are `Nat`s, with `0` standing for NULL. -/

structure SslSession where
  httpVersion : Nat
  isActive : Bool
  deriving DecidableEq, Repr

structure TlsState where
  sslSessions : List (Nat × SslSession)
  sslReadArgs : List (Nat × Nat)
  sslReadExArgs : List (Nat × Nat)
  sslHandshakeArgs : List (Nat × Nat)
  deriving DecidableEq, Repr

def emptyTlsState : TlsState := ⟨[], [], [], []⟩

structure TlsPayloadEvent where
  eventType : Nat
  pid : Nat
  sslCtx : Nat
  httpVersion : Nat
  size : Nat
  buf : List Nat
  deriving DecidableEq, Repr

def startsWithBytes (bs : List Nat) (p : String) : Bool :=
  decide (bs.take (strBytes p).length = strBytes p)

def httpMethodPrefixes : List String :=
  ["GET ", "POST ", "PUT ", "DELETE ", "HEAD ", "OPTIONS ", "PATCH "]

/-- Modelled from the spec: `identify_http_version` lives in `src/bpf/tls.h`,
which is not among the sources.  Per the spec (§4.A and the TLS payload
policy), the payload is classified as HTTP/2 by the client connection
preface, as an HTTP/1 request by its method line, or as an HTTP/1 response
by the `HTTP/` status line; the result is (http version, message type)
with version unknown = 0 and message type request = 1, response = 2,
unknown = 3. -/
def identifyHttpVersion (bs : List Nat) : Nat × Nat :=
  if startsWithBytes bs "PRI * HTTP/2.0" then (2, 1)
  else if httpMethodPrefixes.any (fun m => startsWithBytes bs m) then (1, 1)
  else if startsWithBytes bs "HTTP/" then (1, 2)
  else (0, 3)

/-- `(__u32)ret` then `size &= 0x7FFFFFFF`. -/
def tlsEventSize (ret : Int) : Nat :=
  Nat.land (Int.toNat ret % 4294967296) 2147483647

def mkTlsEvent (ty pid ssl ver : Nat) (ret : Int) (mem : List Nat) : TlsPayloadEvent :=
  { eventType := ty, pid := pid, sslCtx := ssl, httpVersion := ver,
    size := tlsEventSize ret,
    buf := mem.take (min (tlsEventSize ret) maxBufSize) }

/-- The `tls_payload_event` of the `_ex` probes, whose `size` is the
`size_t` byte count taken directly (`actual_read` / `num`). -/
def mkTlsEventN (ty pid ssl ver size : Nat) (mem : List Nat) : TlsPayloadEvent :=
  { eventType := ty, pid := pid, sslCtx := ssl, httpVersion := ver,
    size := size, buf := mem.take (min size maxBufSize) }

def sslNewExit (st : TlsState) (ssl : Nat) : TlsState :=
  if ssl = 0 then st
  else { st with sslSessions := mapSet ssl (SslSession.mk 0 false) st.sslSessions }

def sslFreeEntry (st : TlsState) (ssl : Nat) : TlsState × Option Nat :=
  if ssl = 0 then (st, none)
  else ({ st with sslSessions := mapDel ssl st.sslSessions }, some ssl)

def sslDoHandshakeEntry (st : TlsState) (pid ssl : Nat) : TlsState :=
  { st with sslHandshakeArgs := mapSet pid ssl st.sslHandshakeArgs }

def sslDoHandshakeExit (st : TlsState) (pid : Nat) (ret : Int) : TlsState :=
  match mapGet pid st.sslHandshakeArgs with
  | none => st
  | some ssl =>
    if ret ≠ 1 then { st with sslHandshakeArgs := mapDel pid st.sslHandshakeArgs }
    else
      match mapGet ssl st.sslSessions with
      | none => { st with sslHandshakeArgs := mapDel pid st.sslHandshakeArgs }
      | some session =>
        { st with
            sslHandshakeArgs := mapDel pid st.sslHandshakeArgs,
            sslSessions := mapSet ssl (SslSession.mk session.httpVersion true)
              st.sslSessions }

def sslReadEntry (st : TlsState) (pid ssl : Nat) : TlsState :=
  { st with sslReadArgs := mapSet pid ssl st.sslReadArgs }

def sslReadExit (st : TlsState) (pid : Nat) (ret : Int) (mem : List Nat) :
    TlsState × Option TlsPayloadEvent :=
  match mapGet pid st.sslReadArgs with
  | none => (st, none)
  | some sslp =>
    if ret ≤ 0 then
      ({ st with sslReadArgs := mapDel pid st.sslReadArgs }, none)
    else
      match mapGet sslp st.sslSessions with
      | none => ({ st with sslReadArgs := mapDel pid st.sslReadArgs }, none)
      | some session =>
        if session.httpVersion = 0 then
          if (identifyHttpVersion mem).1 = 0 then
            ({ st with sslReadArgs := mapDel pid st.sslReadArgs }, none)
          else if (identifyHttpVersion mem).2 = 1 then
            ({ st with sslReadArgs := mapDel pid st.sslReadArgs }, none)
          else
            ({ st with
                sslReadArgs := mapDel pid st.sslReadArgs,
                sslSessions := mapSet sslp
                  (SslSession.mk (identifyHttpVersion mem).1 session.isActive)
                  st.sslSessions },
              some (mkTlsEvent 5 pid sslp (identifyHttpVersion mem).1 ret mem))
        else
          ({ st with sslReadArgs := mapDel pid st.sslReadArgs },
            some (mkTlsEvent 5 pid sslp session.httpVersion ret mem))

def sslWriteEntry (st : TlsState) (pid ssl : Nat) (num : Int) (mem : List Nat) :
    TlsState × Option TlsPayloadEvent :=
  if num ≤ 0 then (st, none)
  else
    match mapGet ssl st.sslSessions with
    | none => (st, none)
    | some session =>
      if session.httpVersion = 0 then
        if (identifyHttpVersion mem).1 = 0 then (st, none)
        else if (identifyHttpVersion mem).2 = 2 then (st, none)
        else
          ({ st with
              sslSessions := mapSet ssl
                (SslSession.mk (identifyHttpVersion mem).1 session.isActive)
                st.sslSessions },
            some (mkTlsEvent 4 pid ssl (identifyHttpVersion mem).1 num mem))
      else (st, some (mkTlsEvent 4 pid ssl session.httpVersion num mem))

def sslReadExEntry (st : TlsState) (pid ssl : Nat) : TlsState :=
  { st with sslReadExArgs := mapSet pid ssl st.sslReadExArgs }

/-- `ssl_read_ex_exit`: the entry params are deleted as soon as found, only
`ret == 1` reads proceed, and `actual_read` (read from the `readbytes`
pointer) gives the event size. -/
def sslReadExExit (st : TlsState) (pid : Nat) (ret : Int) (actualRead : Nat)
    (mem : List Nat) : TlsState × Option TlsPayloadEvent :=
  match mapGet pid st.sslReadExArgs with
  | none => (st, none)
  | some sslp =>
    if ret ≠ 1 then
      ({ st with sslReadExArgs := mapDel pid st.sslReadExArgs }, none)
    else
      match mapGet sslp st.sslSessions with
      | none => ({ st with sslReadExArgs := mapDel pid st.sslReadExArgs }, none)
      | some session =>
        if session.httpVersion = 0 then
          if (identifyHttpVersion mem).1 = 0 then
            ({ st with sslReadExArgs := mapDel pid st.sslReadExArgs }, none)
          else if (identifyHttpVersion mem).2 = 1 then
            ({ st with sslReadExArgs := mapDel pid st.sslReadExArgs }, none)
          else
            ({ st with
                sslReadExArgs := mapDel pid st.sslReadExArgs,
                sslSessions := mapSet sslp
                  (SslSession.mk (identifyHttpVersion mem).1 session.isActive)
                  st.sslSessions },
              some (mkTlsEventN 5 pid sslp (identifyHttpVersion mem).1 actualRead mem))
        else
          ({ st with sslReadExArgs := mapDel pid st.sslReadExArgs },
            some (mkTlsEventN 5 pid sslp session.httpVersion actualRead mem))

/-- `ssl_write_ex_entry`: `num` is a `size_t`, so `num <= 0` means `num = 0`. -/
def sslWriteExEntry (st : TlsState) (pid ssl num : Nat) (mem : List Nat) :
    TlsState × Option TlsPayloadEvent :=
  if num = 0 then (st, none)
  else
    match mapGet ssl st.sslSessions with
    | none => (st, none)
    | some session =>
      if session.httpVersion = 0 then
        if (identifyHttpVersion mem).1 = 0 then (st, none)
        else if (identifyHttpVersion mem).2 = 2 then (st, none)
        else
          ({ st with
              sslSessions := mapSet ssl
                (SslSession.mk (identifyHttpVersion mem).1 session.isActive)
                st.sslSessions },
            some (mkTlsEventN 4 pid ssl (identifyHttpVersion mem).1 num mem))
      else (st, some (mkTlsEventN 4 pid ssl session.httpVersion num mem))

/-- Flip every session's active flag: used to state that the payload paths
never consult `is_active`. -/
def setActive (b : Bool) (s : SslSession) : SslSession :=
  { httpVersion := s.httpVersion, isActive := b }

def setAllActive (b : Bool) (st : TlsState) : TlsState :=
  { st with sslSessions := st.sslSessions.map (fun p => (p.1, setActive b p.2)) }

theorem mapGet_map_val {κ α β : Type} [DecidableEq κ] (f : α → β) (k : κ) :
    ∀ m : List (κ × α), mapGet k (m.map (fun p => (p.1, f p.2))) = (mapGet k m).map f := by
  intro m
  induction m with
  | nil => rfl
  | cons p rest ih =>
    obtain ⟨k2, v⟩ := p
    by_cases hk : k2 = k
    · simp [mapGet, hk]
    · simp [mapGet, hk, ih]

theorem sslReadExit_emit_session (st : TlsState) (pid : Nat) (ret : Int) (mem : List Nat)
    (st2 : TlsState) (ev : TlsPayloadEvent)
    (h : sslReadExit st pid ret mem = (st2, some ev)) :
    ∃ sslp s, mapGet pid st.sslReadArgs = some sslp ∧
      mapGet sslp st.sslSessions = some s ∧ ev.sslCtx = sslp := by
  unfold sslReadExit at h
  cases hargs : mapGet pid st.sslReadArgs with
  | none => rw [hargs] at h; simp at h
  | some sslp =>
    rw [hargs] at h
    dsimp only at h
    by_cases hret : ret ≤ 0
    · rw [if_pos hret] at h; simp at h
    · rw [if_neg hret] at h
      cases hs : mapGet sslp st.sslSessions with
      | none => rw [hs] at h; simp at h
      | some session =>
        rw [hs] at h
        dsimp only at h
        by_cases hv : session.httpVersion = 0
        · rw [if_pos hv] at h
          by_cases h1 : (identifyHttpVersion mem).1 = 0
          · rw [if_pos h1] at h; simp at h
          · rw [if_neg h1] at h
            by_cases h2 : (identifyHttpVersion mem).2 = 1
            · rw [if_pos h2] at h; simp at h
            · rw [if_neg h2] at h
              refine ⟨sslp, session, rfl, hs, ?_⟩
              have hev : some (mkTlsEvent 5 pid sslp (identifyHttpVersion mem).1 ret mem)
                  = some ev := congrArg Prod.snd h
              injection hev with hev2
              rw [← hev2]
              rfl
        · rw [if_neg hv] at h
          refine ⟨sslp, session, rfl, hs, ?_⟩
          have hev : some (mkTlsEvent 5 pid sslp session.httpVersion ret mem)
              = some ev := congrArg Prod.snd h
          injection hev with hev2
          rw [← hev2]
          rfl

theorem sslWriteEntry_emit_session (st : TlsState) (pid ssl : Nat) (num : Int)
    (mem : List Nat) (st2 : TlsState) (ev : TlsPayloadEvent)
    (h : sslWriteEntry st pid ssl num mem = (st2, some ev)) :
    ∃ s, mapGet ssl st.sslSessions = some s ∧ ev.sslCtx = ssl := by
  unfold sslWriteEntry at h
  by_cases hnum : num ≤ 0
  · rw [if_pos hnum] at h; simp at h
  · rw [if_neg hnum] at h
    cases hs : mapGet ssl st.sslSessions with
    | none => rw [hs] at h; simp at h
    | some session =>
      rw [hs] at h
      dsimp only at h
      by_cases hv : session.httpVersion = 0
      · rw [if_pos hv] at h
        by_cases h1 : (identifyHttpVersion mem).1 = 0
        · rw [if_pos h1] at h; simp at h
        · rw [if_neg h1] at h
          by_cases h2 : (identifyHttpVersion mem).2 = 2
          · rw [if_pos h2] at h; simp at h
          · rw [if_neg h2] at h
            refine ⟨session, rfl, ?_⟩
            have hev : some (mkTlsEvent 4 pid ssl (identifyHttpVersion mem).1 num mem)
                = some ev := congrArg Prod.snd h
            injection hev with hev2
            rw [← hev2]
            rfl
      · rw [if_neg hv] at h
        refine ⟨session, rfl, ?_⟩
        have hev : some (mkTlsEvent 4 pid ssl session.httpVersion num mem)
            = some ev := congrArg Prod.snd h
        injection hev with hev2
        rw [← hev2]
        rfl

theorem sslReadExit_active_irrelevant (st : TlsState) (pid : Nat) (ret : Int)
    (mem : List Nat) (b : Bool) :
    (sslReadExit (setAllActive b st) pid ret mem).2 = (sslReadExit st pid ret mem).2 := by
  unfold sslReadExit
  rw [show (setAllActive b st).sslReadArgs = st.sslReadArgs from rfl]
  cases hargs : mapGet pid st.sslReadArgs with
  | none => rfl
  | some sslp =>
    dsimp only
    by_cases hret : ret ≤ 0
    · rw [if_pos hret, if_pos hret]
    · rw [if_neg hret, if_neg hret]
      rw [show (setAllActive b st).sslSessions
          = st.sslSessions.map (fun p => (p.1, setActive b p.2)) from rfl]
      rw [mapGet_map_val (setActive b) sslp st.sslSessions]
      cases hs : mapGet sslp st.sslSessions with
      | none => rfl
      | some session =>
        dsimp only [Option.map]
        rw [show (setActive b session).httpVersion = session.httpVersion from rfl]
        by_cases hv : session.httpVersion = 0
        · rw [if_pos hv, if_pos hv]
          by_cases h1 : (identifyHttpVersion mem).1 = 0
          · rw [if_pos h1, if_pos h1]
          · rw [if_neg h1, if_neg h1]
            by_cases h2 : (identifyHttpVersion mem).2 = 1
            · rw [if_pos h2, if_pos h2]
            · rw [if_neg h2, if_neg h2]
        · rw [if_neg hv, if_neg hv]

theorem sslWriteEntry_active_irrelevant (st : TlsState) (pid ssl : Nat) (num : Int)
    (mem : List Nat) (b : Bool) :
    (sslWriteEntry (setAllActive b st) pid ssl num mem).2
      = (sslWriteEntry st pid ssl num mem).2 := by
  unfold sslWriteEntry
  by_cases hnum : num ≤ 0
  · rw [if_pos hnum, if_pos hnum]
  · rw [if_neg hnum, if_neg hnum]
    rw [show (setAllActive b st).sslSessions
        = st.sslSessions.map (fun p => (p.1, setActive b p.2)) from rfl]
    rw [mapGet_map_val (setActive b) ssl st.sslSessions]
    cases hs : mapGet ssl st.sslSessions with
    | none => rfl
    | some session =>
      dsimp only [Option.map]
      rw [show (setActive b session).httpVersion = session.httpVersion from rfl]
      by_cases hv : session.httpVersion = 0
      · rw [if_pos hv, if_pos hv]
        by_cases h1 : (identifyHttpVersion mem).1 = 0
        · rw [if_pos h1, if_pos h1]
        · rw [if_neg h1, if_neg h1]
          by_cases h2 : (identifyHttpVersion mem).2 = 2
          · rw [if_pos h2, if_pos h2]
          · rw [if_neg h2, if_neg h2]
      · rw [if_neg hv, if_neg hv]

theorem sslReadExExit_emit_session (st : TlsState) (pid : Nat) (ret : Int)
    (actualRead : Nat) (mem : List Nat) (st2 : TlsState) (ev : TlsPayloadEvent)
    (h : sslReadExExit st pid ret actualRead mem = (st2, some ev)) :
    ∃ sslp s, mapGet pid st.sslReadExArgs = some sslp ∧
      mapGet sslp st.sslSessions = some s ∧ ev.sslCtx = sslp := by
  unfold sslReadExExit at h
  cases hargs : mapGet pid st.sslReadExArgs with
  | none => rw [hargs] at h; simp at h
  | some sslp =>
    rw [hargs] at h
    dsimp only at h
    by_cases hret : ret ≠ 1
    · rw [if_pos hret] at h; simp at h
    · rw [if_neg hret] at h
      cases hs : mapGet sslp st.sslSessions with
      | none => rw [hs] at h; simp at h
      | some session =>
        rw [hs] at h
        dsimp only at h
        by_cases hv : session.httpVersion = 0
        · rw [if_pos hv] at h
          by_cases h1 : (identifyHttpVersion mem).1 = 0
          · rw [if_pos h1] at h; simp at h
          · rw [if_neg h1] at h
            by_cases h2 : (identifyHttpVersion mem).2 = 1
            · rw [if_pos h2] at h; simp at h
            · rw [if_neg h2] at h
              refine ⟨sslp, session, rfl, hs, ?_⟩
              have hev : some (mkTlsEventN 5 pid sslp (identifyHttpVersion mem).1
                  actualRead mem) = some ev := congrArg Prod.snd h
              injection hev with hev2
              rw [← hev2]
              rfl
        · rw [if_neg hv] at h
          refine ⟨sslp, session, rfl, hs, ?_⟩
          have hev : some (mkTlsEventN 5 pid sslp session.httpVersion actualRead mem)
              = some ev := congrArg Prod.snd h
          injection hev with hev2
          rw [← hev2]
          rfl

theorem sslWriteExEntry_emit_session (st : TlsState) (pid ssl num : Nat)
    (mem : List Nat) (st2 : TlsState) (ev : TlsPayloadEvent)
    (h : sslWriteExEntry st pid ssl num mem = (st2, some ev)) :
    ∃ s, mapGet ssl st.sslSessions = some s ∧ ev.sslCtx = ssl := by
  unfold sslWriteExEntry at h
  by_cases hnum : num = 0
  · rw [if_pos hnum] at h; simp at h
  · rw [if_neg hnum] at h
    cases hs : mapGet ssl st.sslSessions with
    | none => rw [hs] at h; simp at h
    | some session =>
      rw [hs] at h
      dsimp only at h
      by_cases hv : session.httpVersion = 0
      · rw [if_pos hv] at h
        by_cases h1 : (identifyHttpVersion mem).1 = 0
        · rw [if_pos h1] at h; simp at h
        · rw [if_neg h1] at h
          by_cases h2 : (identifyHttpVersion mem).2 = 2
          · rw [if_pos h2] at h; simp at h
          · rw [if_neg h2] at h
            refine ⟨session, rfl, ?_⟩
            have hev : some (mkTlsEventN 4 pid ssl (identifyHttpVersion mem).1 num mem)
                = some ev := congrArg Prod.snd h
            injection hev with hev2
            rw [← hev2]
            rfl
      · rw [if_neg hv] at h
        refine ⟨session, rfl, ?_⟩
        have hev : some (mkTlsEventN 4 pid ssl session.httpVersion num mem)
            = some ev := congrArg Prod.snd h
        injection hev with hev2
        rw [← hev2]
        rfl

theorem sslReadExExit_active_irrelevant (st : TlsState) (pid : Nat) (ret : Int)
    (actualRead : Nat) (mem : List Nat) (b : Bool) :
    (sslReadExExit (setAllActive b st) pid ret actualRead mem).2
      = (sslReadExExit st pid ret actualRead mem).2 := by
  unfold sslReadExExit
  rw [show (setAllActive b st).sslReadExArgs = st.sslReadExArgs from rfl]
  cases hargs : mapGet pid st.sslReadExArgs with
  | none => rfl
  | some sslp =>
    dsimp only
    by_cases hret : ret ≠ 1
    · rw [if_pos hret, if_pos hret]
    · rw [if_neg hret, if_neg hret]
      rw [show (setAllActive b st).sslSessions
          = st.sslSessions.map (fun p => (p.1, setActive b p.2)) from rfl]
      rw [mapGet_map_val (setActive b) sslp st.sslSessions]
      cases hs : mapGet sslp st.sslSessions with
      | none => rfl
      | some session =>
        dsimp only [Option.map]
        rw [show (setActive b session).httpVersion = session.httpVersion from rfl]
        by_cases hv : session.httpVersion = 0
        · rw [if_pos hv, if_pos hv]
          by_cases h1 : (identifyHttpVersion mem).1 = 0
          · rw [if_pos h1, if_pos h1]
          · rw [if_neg h1, if_neg h1]
            by_cases h2 : (identifyHttpVersion mem).2 = 1
            · rw [if_pos h2, if_pos h2]
            · rw [if_neg h2, if_neg h2]
        · rw [if_neg hv, if_neg hv]

theorem sslWriteExEntry_active_irrelevant (st : TlsState) (pid ssl num : Nat)
    (mem : List Nat) (b : Bool) :
    (sslWriteExEntry (setAllActive b st) pid ssl num mem).2
      = (sslWriteExEntry st pid ssl num mem).2 := by
  unfold sslWriteExEntry
  by_cases hnum : num = 0
  · rw [if_pos hnum, if_pos hnum]
  · rw [if_neg hnum, if_neg hnum]
    rw [show (setAllActive b st).sslSessions
        = st.sslSessions.map (fun p => (p.1, setActive b p.2)) from rfl]
    rw [mapGet_map_val (setActive b) ssl st.sslSessions]
    cases hs : mapGet ssl st.sslSessions with
    | none => rfl
    | some session =>
      dsimp only [Option.map]
      rw [show (setActive b session).httpVersion = session.httpVersion from rfl]
      by_cases hv : session.httpVersion = 0
      · rw [if_pos hv, if_pos hv]
        by_cases h1 : (identifyHttpVersion mem).1 = 0
        · rw [if_pos h1, if_pos h1]
        · rw [if_neg h1, if_neg h1]
          by_cases h2 : (identifyHttpVersion mem).2 = 2
          · rw [if_pos h2, if_pos h2]
          · rw [if_neg h2, if_neg h2]
      · rw [if_neg hv, if_neg hv]

/-- A session created by `SSL_new` and read before any handshake: the read
still emits a payload event. -/
def c6Payload : List Nat := strBytes "HTTP/1.1 200 OK"

def c6St1 : TlsState := sslReadEntry (sslNewExit emptyTlsState 4096) 55 4096

/-- C6 (counterexample): `ssl_read_exit` never consults `is_active` — a
session freshly created by `SSL_new` (flag still 0, `ssl_handshake_args`
empty, so no handshake ever ran) still gets a `TLSPayloadRecvEvent` emitted
for an `SSL_read` of an HTTP/1.1 response. -/
theorem c6_counterexample :
    ((sslReadExit c6St1 55 15 c6Payload).2).isSome = true ∧
    (mapGet 4096 c6St1.sslSessions).map SslSession.isActive = some false ∧
    c6St1.sslHandshakeArgs = [] := by decide

/-- C6 (amended): a TLS payload event is emitted by any of the four payload
paths — `ssl_read_exit`, `ssl_write_entry`, `ssl_read_ex_exit`,
`ssl_write_ex_entry` — only for an SSL pointer that is present in
`ssl_sessions` (created by `SSL_new` and not yet freed), and each path's
emission is independent of the sessions' `is_active` flags: flipping every
flag changes none of the four emitted events. -/
theorem c6_amended (st : TlsState) (pid ssl exSsl : Nat) (ret exRet num : Int)
    (actualRead exNum : Nat) (mem : List Nat) :
    (∀ st2 ev, sslReadExit st pid ret mem = (st2, some ev) →
      ∃ sslp s, mapGet pid st.sslReadArgs = some sslp ∧
        mapGet sslp st.sslSessions = some s ∧ ev.sslCtx = sslp) ∧
    (∀ st2 ev, sslWriteEntry st pid ssl num mem = (st2, some ev) →
      ∃ s, mapGet ssl st.sslSessions = some s ∧ ev.sslCtx = ssl) ∧
    (∀ st2 ev, sslReadExExit st pid exRet actualRead mem = (st2, some ev) →
      ∃ sslp s, mapGet pid st.sslReadExArgs = some sslp ∧
        mapGet sslp st.sslSessions = some s ∧ ev.sslCtx = sslp) ∧
    (∀ st2 ev, sslWriteExEntry st pid exSsl exNum mem = (st2, some ev) →
      ∃ s, mapGet exSsl st.sslSessions = some s ∧ ev.sslCtx = exSsl) ∧
    (∀ b, (sslReadExit (setAllActive b st) pid ret mem).2
      = (sslReadExit st pid ret mem).2) ∧
    (∀ b, (sslWriteEntry (setAllActive b st) pid ssl num mem).2
      = (sslWriteEntry st pid ssl num mem).2) ∧
    (∀ b, (sslReadExExit (setAllActive b st) pid exRet actualRead mem).2
      = (sslReadExExit st pid exRet actualRead mem).2) ∧
    (∀ b, (sslWriteExEntry (setAllActive b st) pid exSsl exNum mem).2
      = (sslWriteExEntry st pid exSsl exNum mem).2) :=
  ⟨fun st2 ev h => sslReadExit_emit_session st pid ret mem st2 ev h,
   fun st2 ev h => sslWriteEntry_emit_session st pid ssl num mem st2 ev h,
   fun st2 ev h => sslReadExExit_emit_session st pid exRet actualRead mem st2 ev h,
   fun st2 ev h => sslWriteExEntry_emit_session st pid exSsl exNum mem st2 ev h,
   fun b => sslReadExit_active_irrelevant st pid ret mem b,
   fun b => sslWriteEntry_active_irrelevant st pid ssl num mem b,
   fun b => sslReadExExit_active_irrelevant st pid exRet actualRead mem b,
   fun b => sslWriteExEntry_active_irrelevant st pid exSsl exNum mem b⟩

def defaultTlsEvent : TlsPayloadEvent := ⟨0, 0, 0, 0, 0, []⟩

def c6Ev : TlsPayloadEvent := ((sslReadExit c6St1 55 15 c6Payload).2).getD defaultTlsEvent

def c6StEx : TlsState := sslReadExEntry (sslNewExit emptyTlsState 4096) 55 4096

def c6EvEx : TlsPayloadEvent :=
  ((sslReadExExit c6StEx 55 1 15 c6Payload).2).getD defaultTlsEvent

/-- Witness for C6 (amended): concrete pre-handshake emissions on the
`SSL_read` and `SSL_read_ex` paths. -/
theorem c6_amended_witness :
    ((sslReadExit c6St1 55 15 c6Payload
        = ((sslReadExit c6St1 55 15 c6Payload).1, some c6Ev)) ∧
      (∃ sslp s, mapGet 55 c6St1.sslReadArgs = some sslp ∧
        mapGet sslp c6St1.sslSessions = some s ∧ c6Ev.sslCtx = sslp)) ∧
    ((sslReadExExit c6StEx 55 1 15 c6Payload
        = ((sslReadExExit c6StEx 55 1 15 c6Payload).1, some c6EvEx)) ∧
      (∃ sslp s, mapGet 55 c6StEx.sslReadExArgs = some sslp ∧
        mapGet sslp c6StEx.sslSessions = some s ∧ c6EvEx.sslCtx = sslp)) :=
  ⟨⟨by decide,
    (c6_amended c6St1 55 0 0 15 0 0 0 0 c6Payload).1
      (sslReadExit c6St1 55 15 c6Payload).1 c6Ev (by decide)⟩,
   ⟨by decide,
    (c6_amended c6StEx 55 0 0 0 1 0 15 0 c6Payload).2.2.1
      (sslReadExExit c6StEx 55 1 15 c6Payload).1 c6EvEx (by decide)⟩⟩

/-! ## The library hook manager's cross-namespace attach path
(`pkg/ebpf/library_manager.go`, `attachSSLProbesInNamespace`)

The namespace switcher and the probe attacher are external effects; the
embedding takes their outcomes as parameters (`none` = success,
`some e` = failure with error `e`) and records the calls made.  The `defer`
guarantees that after a successful `SwitchTo` the `Restore` runs on every
exit of the function, and a `Restore` failure is only logged, never
returned. -/

inductive NsCall where
  | switchTo
  | attach
  | restore
  deriving DecidableEq, Repr

def attachSSLProbesInNamespace (switchRes attachRes _restoreRes : Option String) :
    Option String × List NsCall :=
  match switchRes with
  | some e => (some ("failed to switch to mount namespace: " ++ e), [NsCall.switchTo])
  | none => (attachRes, [NsCall.switchTo, NsCall.attach, NsCall.restore])

/-- C8 (confirmed): after a successful `SwitchTo`, `Restore` runs exactly
once on every exit path, including an `AttachSSLProbes` failure, whose
original error is returned unchanged; when `SwitchTo` itself fails, no
`Restore` happens and the (wrapped) switch error is returned. -/
theorem c8_restore_paired (sw att rs : Option String) :
    (sw = none →
      (attachSSLProbesInNamespace sw att rs).2.count NsCall.restore = 1 ∧
      (attachSSLProbesInNamespace sw att rs).1 = att) ∧
    (∀ e, sw = some e →
      (attachSSLProbesInNamespace sw att rs).1
        = some ("failed to switch to mount namespace: " ++ e) ∧
      (attachSSLProbesInNamespace sw att rs).2.count NsCall.restore = 0) ∧
    (attachSSLProbesInNamespace sw att rs).2.count NsCall.switchTo = 1 := by
  refine ⟨?_, ?_, ?_⟩
  · intro hsw
    subst hsw
    exact ⟨rfl, rfl⟩
  · intro e hsw
    subst hsw
    exact ⟨rfl, rfl⟩
  · cases sw with
    | none => rfl
    | some e => rfl

/-- Witness for C8: a successful switch with a failing attach — `Restore`
still runs once and the attach error is returned. -/
theorem c8_restore_paired_witness :
    ((none : Option String) = none ∧
      (attachSSLProbesInNamespace none (some "attach failed") none).2.count NsCall.restore = 1) ∧
    (attachSSLProbesInNamespace none (some "attach failed") none).1 = some "attach failed" :=
  ⟨⟨rfl, ((c8_restore_paired none (some "attach failed") none).1 rfl).1⟩,
    ((c8_restore_paired none (some "attach failed") none).1 rfl).2⟩

/-! ## Deterministic session ids (`pkg/session`, `GenerateDeterministicID`)

Components are modelled as strings (Go's `%v` of a string is the string
itself); each component is appended to the composite followed by `":"`;
the id is formatted from the hex SHA-256 of the composite. -/

def composite (components : List String) : String :=
  components.foldl (fun acc c => acc ++ c ++ ":") ""

def hexSub (s : String) (i j : Nat) : String :=
  ((s.toList.drop i).take (j - i)).asString

/-- The UUID-style formatting of the first 32 hex digits
(`xxxxxxxx-xxxx-4xxx-xxxx-xxxxxxxxxxxx`, digit 12 replaced by `4`). -/
def idFromComposite (s : String) : String :=
  hexSub (bytesToHex (sha256Bytes (strBytes s))) 0 8 ++ "-" ++
  hexSub (bytesToHex (sha256Bytes (strBytes s))) 8 12 ++ "-4" ++
  hexSub (bytesToHex (sha256Bytes (strBytes s))) 13 16 ++ "-" ++
  hexSub (bytesToHex (sha256Bytes (strBytes s))) 16 20 ++ "-" ++
  hexSub (bytesToHex (sha256Bytes (strBytes s))) 20 32

def generateDeterministicID (components : List String) : String :=
  idFromComposite (composite components)

/-- C9 (counterexample): the colon-terminated concatenation does not keep
tuple boundaries apart — `("a:b")` and `("a", "b")` share the composite
`"a:b:"`, hence the same id, while being different tuples. -/
theorem c9_counterexample :
    generateDeterministicID ["a:b"] = generateDeterministicID ["a", "b"] ∧
    (["a:b"] : List String) ≠ ["a", "b"] := by
  constructor
  · have h : composite ["a:b"] = composite ["a", "b"] := by decide
    exact congrArg idFromComposite h
  · decide

def joinColon : List (List Char) → List Char
  | [] => []
  | c :: rest => c ++ ':' :: joinColon rest

theorem composite_foldl_data (l : List String) :
    ∀ acc : String, (l.foldl (fun a c => a ++ c ++ ":") acc).data
      = acc.data ++ joinColon (l.map String.data) := by
  induction l with
  | nil =>
    intro acc
    simp [joinColon]
  | cons c rest ih =>
    intro acc
    rw [List.foldl_cons, ih (acc ++ c ++ ":")]
    simp [joinColon, String.data_append]

theorem composite_data (l : List String) :
    (composite l).data = joinColon (l.map String.data) := by
  unfold composite
  rw [composite_foldl_data l ""]
  rfl

theorem colon_split {a1 a2 s1 s2 : List Char} (h1 : ':' ∉ a1) (h2 : ':' ∉ a2)
    (h : a1 ++ ':' :: s1 = a2 ++ ':' :: s2) : a1 = a2 ∧ s1 = s2 := by
  induction a1 generalizing a2 with
  | nil =>
    cases a2 with
    | nil =>
      rw [List.nil_append, List.nil_append] at h
      exact ⟨rfl, by injection h⟩
    | cons x xs =>
      rw [List.nil_append, List.cons_append] at h
      injection h with hx _
      exact absurd (hx ▸ List.mem_cons_self x xs) h2
  | cons y ys ih =>
    cases a2 with
    | nil =>
      rw [List.nil_append, List.cons_append] at h
      injection h with hx _
      exact absurd (hx ▸ List.mem_cons_self y ys) h1
    | cons x xs =>
      rw [List.cons_append, List.cons_append] at h
      injection h with hx hrest
      have h1t : ':' ∉ ys := fun hc => h1 (List.mem_cons_of_mem _ hc)
      have h2t : ':' ∉ xs := fun hc => h2 (List.mem_cons_of_mem _ hc)
      obtain ⟨ha, hs⟩ := ih h1t h2t hrest
      exact ⟨by rw [hx, ha], hs⟩

theorem joinColon_inj : ∀ l1 l2 : List (List Char),
    (∀ c ∈ l1, ':' ∉ c) → (∀ c ∈ l2, ':' ∉ c) →
    joinColon l1 = joinColon l2 → l1 = l2 := by
  intro l1
  induction l1 with
  | nil =>
    intro l2 _ _ h
    cases l2 with
    | nil => rfl
    | cons c rest =>
      unfold joinColon at h
      have := congrArg List.length h
      simp at this
      omega
  | cons c1 rest1 ih =>
    intro l2 hl1 hl2 h
    cases l2 with
    | nil =>
      unfold joinColon at h
      have := congrArg List.length h
      simp at this
    | cons c2 rest2 =>
      unfold joinColon at h
      obtain ⟨hc, hrest⟩ := colon_split (hl1 c1 (List.mem_cons_self _ _))
        (hl2 c2 (List.mem_cons_self _ _)) h
      have htails := ih rest2 (fun c hc2 => hl1 c (List.mem_cons_of_mem _ hc2))
        (fun c hc2 => hl2 c (List.mem_cons_of_mem _ hc2)) hrest
      rw [hc, htails]

/-- C9 (amended): `GenerateDeterministicID` is a function of the
colon-terminated concatenation of its components alone (so tuples with
identical composites get identical ids — identical tuples in particular),
and for tuples of colon-free components, equal composites force equal
tuples. -/
theorem c9_amended :
    (∀ l1 l2 : List String, composite l1 = composite l2 →
      generateDeterministicID l1 = generateDeterministicID l2) ∧
    (∀ l1 l2 : List String, (∀ s ∈ l1, ':' ∉ s.toList) → (∀ s ∈ l2, ':' ∉ s.toList) →
      composite l1 = composite l2 → l1 = l2) := by
  constructor
  · intro l1 l2 h
    exact congrArg idFromComposite h
  · intro l1 l2 h1 h2 h
    have hdata : joinColon (l1.map String.data) = joinColon (l2.map String.data) := by
      rw [← composite_data, ← composite_data, h]
    have hfree1 : ∀ c ∈ l1.map String.data, ':' ∉ c := by
      intro c hc
      obtain ⟨s, hs, rfl⟩ := List.mem_map.mp hc
      exact h1 s hs
    have hfree2 : ∀ c ∈ l2.map String.data, ':' ∉ c := by
      intro c hc
      obtain ⟨s, hs, rfl⟩ := List.mem_map.mp hc
      exact h2 s hs
    have hmaps := joinColon_inj (l1.map String.data) (l2.map String.data) hfree1 hfree2 hdata
    clear hdata hfree1 hfree2 h
    induction l1 generalizing l2 with
    | nil =>
      cases l2 with
      | nil => rfl
      | cons c rest => simp at hmaps
    | cons c1 rest1 ih =>
      cases l2 with
      | nil => simp at hmaps
      | cons c2 rest2 =>
        simp only [List.map_cons, List.cons.injEq] at hmaps
        have hc : c1 = c2 := congrArg String.mk hmaps.1
        rw [hc, ih rest2 (fun s hs => h1 s (List.mem_cons_of_mem _ hs))
          (fun s hs => h2 s (List.mem_cons_of_mem _ hs)) hmaps.2]

/-- Witness for C9 (amended): concrete colliding composites and concrete
colon-free tuples. -/
theorem c9_amended_witness :
    (composite ["x:y"] = composite ["x", "y"] ∧
      generateDeterministicID ["x:y"] = generateDeterministicID ["x", "y"]) ∧
    ((∀ s ∈ (["ab", "cd"] : List String), ':' ∉ s.toList) ∧
      composite ["ab", "cd"] = composite ["ab", "cd"] ∧
      (["ab", "cd"] : List String) = ["ab", "cd"]) :=
  ⟨⟨by decide, c9_amended.1 ["x:y"] ["x", "y"] (by decide)⟩,
    ⟨by decide, rfl,
      c9_amended.2 ["ab", "cd"] ["ab", "cd"] (by decide) (by decide) rfl⟩⟩

end MCPSpy
